/-
Verification of the server-side transactional core of the
milinddethe15/ticket-booking repository.

The Go code under server/internal is shallowly embedded as pure Lean
functions over an explicit database state:
  - server/internal/models/models.go        → the entity structures,
  - server/internal/repository/event_repository.go
      (LockSeat, UnlockSeat, CleanupExpiredLocks)  → seat-registry operations,
  - server/internal/repository/booking_repository.go
      (bookTicketsWithLock, ConfirmBooking, CancelBooking,
       joinInts, parseTicketIDs)            → the booking engine,
  - server/internal/db/database.go (WithRetry, isRetryableError, contains,
       findSubstring)                       → the retry gateway,
  - internal/handlers booking handler (BookTickets status-code mapping).

Conventions of the embedding:
  - SQL rows become Lean lists; an UPDATE ... WHERE p becomes a map that
    rewrites exactly the rows satisfying p, and the driver's RowsAffected
    is the countP of p.  A transaction that returns an error is rolled
    back, so the wrapper functions return the unchanged input state
    together with the error.
  - Timestamps are integers (seconds); time.Time.After is strict `>`.
  - Go float64 prices are modelled as rationals: the claims under test
    concern the algebraic shape (price * quantity), not float rounding.
  - SERIAL keys are modelled by a nextBookingId counter in the state.
  - Go `int` ticket ids are SERIAL primary keys, hence non-negative;
    they are modelled as Nat.
-/
import Mathlib

deriving instance DecidableEq for Except

namespace TicketBooking

/-- Ticket lifecycle status.  models.go declares available/reserved/sold;
migration 002 adds the transient seat-selection status, spelled in
the SQL and repository code with the string for a held seat. -/
inductive TicketStatus
  | available
  | locked
  | reserved
  | sold
deriving DecidableEq

/-- Booking lifecycle status from models.go. -/
inductive BookingStatus
  | pending
  | confirmed
  | cancelled
  | expired
deriving DecidableEq

/-- The status string stored in the tickets.status column. -/
def TicketStatus.str : TicketStatus → String
  | .available => "available"
  | .locked => "locked"
  | .reserved => "reserved"
  | .sold => "sold"

/-- A row of the tickets table (models.Ticket). -/
structure Ticket where
  id : Nat
  eventId : Nat
  seatNo : String
  status : TicketStatus
  updatedAt : Int
deriving DecidableEq

/-- A row of the events table (models.Event); only the columns the
booking core reads are kept. -/
structure Event where
  id : Nat
  name : String
  startTime : Int
  totalTickets : Nat
  availableTickets : Int
  price : Rat
deriving DecidableEq

/-- A row of the bookings table (models.Booking).  The ticket_ids array
column is kept as a list of ids; its wire format (PostgreSQL array text
rendered by pq.Array and re-read by parseTicketIDs) is modelled
separately below and proved to round-trip. -/
structure Booking where
  id : Nat
  userId : Nat
  eventId : Nat
  ticketIds : List Nat
  quantity : Nat
  totalAmount : Rat
  status : BookingStatus
  bookingRef : String
  expiresAt : Int
deriving DecidableEq

/-- models.BookingRequest. -/
structure BookingRequest where
  userId : Nat
  eventId : Nat
  quantity : Nat
deriving DecidableEq

/-- The committed database state. -/
structure DBState where
  events : List Event
  tickets : List Ticket
  bookings : List Booking
  nextBookingId : Nat
deriving DecidableEq

/-! ### Hand-rolled string helpers from database.go / the handlers

Go's `findSubstring(s, substr)` scans offsets 0 .. len(s)-len(substr)
and compares byte slices; it is only invoked when len(s) > len(substr). -/

def findSubstring (s substr : List Char) : Bool :=
  (List.range (s.length - substr.length + 1)).any
    (fun i => ((s.drop i).take substr.length) == substr)

/-- Go `contains(s, substr)` from database.go (duplicated verbatim in the
booking handler). -/
def goContains (s substr : List Char) : Bool :=
  decide (s.length ≥ substr.length) &&
    (s == substr || (decide (s.length > substr.length) && findSubstring s substr))

def containsStr (s substr : String) : Bool :=
  goContains s.data substr.data

/-- Fuel-driven decimal rendering; the fuel only certifies termination
and never runs out when it exceeds the number being rendered. -/
def natToDigitsFuel : Nat → Nat → List Char
  | 0, _ => []
  | fuel + 1, n =>
    if n < 10 then [Char.ofNat (48 + n)]
    else natToDigitsFuel fuel (n / 10) ++ [Char.ofNat (48 + n % 10)]

/-- Decimal digits of a non-negative integer, most significant first:
the rendering of Go fmt's %d verb for a non-negative int. -/
def natToDigits (n : Nat) : List Char := natToDigitsFuel (n + 1) n

/-- Go `char >= '0' && char <= '9'` from parseTicketIDs. -/
def isDigitChar (c : Char) : Bool := '0' ≤ c && c ≤ '9'

/-- strconv.Atoi restricted to the inputs parseTicketIDs feeds it:
non-empty runs of decimal digits (on which Atoi never errs, overflow
aside — ids are modelled as unbounded Nat). -/
def goAtoi (s : List Char) : Option Nat :=
  if s.isEmpty then none
  else if s.all isDigitChar then
    some (s.foldl (fun acc c => 10 * acc + (c.toNat - 48)) 0)
  else none

/-- joinInts from booking_repository.go: first element rendered, then
`result += sep + render` for the rest. -/
def joinInts (ints : List Nat) (sep : List Char) : List Char :=
  match ints with
  | [] => []
  | x :: xs => xs.foldl (fun acc n => acc ++ sep ++ natToDigits n) (natToDigits x)

/-- One step of the parseTicketIDs character scan: digits grow the
current run, a comma flushes the run through Atoi (appending only on
Atoi success), anything else is ignored. -/
def parseStep (st : List Nat × List Char) (c : Char) : List Nat × List Char :=
  if isDigitChar c then (st.1, st.2 ++ [c])
  else if c == ',' then
    if st.2.isEmpty then st
    else
      match goAtoi st.2 with
      | some id => (st.1 ++ [id], [])
      | none => (st.1, [])
  else st

/-- The final flush of parseTicketIDs: a trailing digit run is pushed
through Atoi (appending only on success). -/
def parseFinish (r : List Nat × List Char) : List Nat :=
  if r.2.isEmpty then r.1
  else
    match goAtoi r.2 with
    | some id => r.1 ++ [id]
    | none => r.1

/-- parseTicketIDs from booking_repository.go: inputs shorter than 3
characters yield the empty list; otherwise the first and last character
are stripped, an empty remainder yields the empty list, and the
remainder is scanned, flushing the trailing digit run at the end. -/
def parseTicketIDs (s : List Char) : List Nat :=
  if s.length < 3 then []
  else
    let inner := (s.drop 1).dropLast
    if inner.length == 0 then []
    else parseFinish (inner.foldl parseStep ([], []))

/-! ### Seat registry (event_repository.go) -/

/-- The WHERE clause of LockSeat / UnlockSeat: event_id = $1 AND seat_no = $2. -/
def seatMatch (eventId : Nat) (seatNo : String) (t : Ticket) : Bool :=
  t.eventId == eventId && t.seatNo == seatNo

/-- The row rewrite of LockSeat's UPDATE. -/
def lockRow (eventId : Nat) (seatNo : String) (now : Int) (u : Ticket) : Ticket :=
  if seatMatch eventId seatNo u then { u with status := .locked, updatedAt := now } else u

/-- The row rewrite of UnlockSeat's UPDATE (status filter included). -/
def unlockRow (eventId : Nat) (seatNo : String) (now : Int) (u : Ticket) : Ticket :=
  if seatMatch eventId seatNo u && u.status == .locked then
    { u with status := .available, updatedAt := now }
  else u

/-- LockSeat: SELECT status ... FOR UPDATE, reject a missing seat, reject a
seat whose status is not available (reporting the current status), then
UPDATE the matching rows to the held status, failing if no row was
affected. -/
def lockSeat (st : DBState) (eventId : Nat) (seatNo : String) (now : Int) :
    Except String DBState :=
  match st.tickets.find? (seatMatch eventId seatNo) with
  | none => .error "seat not found"
  | some t =>
    if t.status != .available then
      .error ("seat is no longer available (current status: " ++ t.status.str ++ ")")
    else
      let rowsAffected := st.tickets.countP (seatMatch eventId seatNo)
      if rowsAffected == 0 then .error "seat was just taken by another user"
      else
        .ok { st with tickets := st.tickets.map (lockRow eventId seatNo now) }

/-- LockSeat runs inside WithTransaction: an error rolls the transaction
back, leaving the committed state unchanged. -/
def lockSeatTx (st : DBState) (eventId : Nat) (seatNo : String) (now : Int) :
    DBState × Option String :=
  match lockSeat st eventId seatNo now with
  | .ok st' => (st', none)
  | .error e => (st, some e)

/-- UnlockSeat: UPDATE tickets SET status = 'available' WHERE event_id AND
seat_no match AND the status is the held one.  No transaction, no
error on zero rows. -/
def unlockSeat (st : DBState) (eventId : Nat) (seatNo : String) (now : Int) : DBState :=
  { st with tickets := st.tickets.map (unlockRow eventId seatNo now) }

/-- The WHERE clause of CleanupExpiredLocks: status is the held one AND
updated_at < NOW() - INTERVAL 'd minutes', where d is the configured
seat-lock duration truncated to whole minutes by
int(SeatLockDuration.Minutes()).  Durations are in seconds. -/
def staleLock (now : Int) (lockDurationSeconds : Nat) (t : Ticket) : Bool :=
  t.status == .locked && t.updatedAt < now - 60 * (lockDurationSeconds / 60 : Nat)

/-- The row rewrite of CleanupExpiredLocks' UPDATE. -/
def reclaimRow (now : Int) (lockDurationSeconds : Nat) (t : Ticket) : Ticket :=
  if staleLock now lockDurationSeconds t then
    { t with status := .available, updatedAt := now }
  else t

/-- CleanupExpiredLocks: the single UPDATE reclaiming stale held seats;
returns the new state together with the driver's RowsAffected count. -/
def cleanupExpiredLocks (st : DBState) (now : Int) (lockDurationSeconds : Nat) :
    DBState × Nat :=
  ({ st with tickets := st.tickets.map (reclaimRow now lockDurationSeconds) },
   st.tickets.countP (staleLock now lockDurationSeconds))

/-! ### Booking engine (booking_repository.go) -/

/-- Comparator of the ORDER BY seat_no clause (text ascending). -/
def seatLe (a b : Ticket) : Prop := a.seatNo ≤ b.seatNo

instance : DecidableRel seatLe := fun a b =>
  inferInstanceAs (Decidable (a.seatNo ≤ b.seatNo))

instance : IsTotal Ticket seatLe := ⟨fun a b => le_total a.seatNo b.seatNo⟩

instance : IsTrans Ticket seatLe := ⟨fun _ _ _ h1 h2 => le_trans h1 h2⟩

/-- The rows of `SELECT ... FROM tickets WHERE event_id = $1 AND
status = 'locked' ORDER BY seat_no LIMIT $2 FOR UPDATE`.  ORDER BY over
a unique text column determines the rows uniquely; the model realizes
it with a stable structural sort. -/
def selectLockedSeats (st : DBState) (eventId : Nat) (quantity : Nat) : List Ticket :=
  ((st.tickets.filter (fun t => t.eventId == eventId && t.status == .locked)).insertionSort
    seatLe).take quantity

/-- The row rewrite of bookTicketsWithLock's reservation UPDATE. -/
def reserveRow (ticketIds : List Nat) (now : Int) (t : Ticket) : Ticket :=
  if ticketIds.contains t.id then { t with status := .reserved, updatedAt := now } else t

/-- The row rewrite of step 6 of bookTicketsWithLock (counter decrement). -/
def decrementEventRow (eventId quantity : Nat) (e : Event) : Event :=
  if e.id == eventId then { e with availableTickets := e.availableTickets - quantity } else e

/-- The row rewrite of CancelBooking's ticket release UPDATE. -/
def releaseRow (ticketIds : List Nat) (now : Int) (t : Ticket) : Ticket :=
  if ticketIds.contains t.id then { t with status := .available, updatedAt := now } else t

/-- The row rewrite of CancelBooking's counter increment. -/
def incrementEventRow (eventId quantity : Nat) (e : Event) : Event :=
  if e.id == eventId then { e with availableTickets := e.availableTickets + quantity } else e

/-- The row rewrite of ConfirmBooking's reserved-to-sold UPDATE. -/
def sellRow (ticketIds : List Nat) (now : Int) (t : Ticket) : Ticket :=
  if ticketIds.contains t.id && t.status == .reserved then
    { t with status := .sold, updatedAt := now }
  else t

/-- Mark the matching booking row confirmed. -/
def confirmBookingRow (bookingId : Nat) (b : Booking) : Booking :=
  if b.id == bookingId then { b with status := .confirmed } else b

/-- Mark the matching booking row cancelled. -/
def cancelBookingRow (bookingId : Nat) (b : Booking) : Booking :=
  if b.id == bookingId then { b with status := .cancelled } else b

/-- The error message of step 4 of bookTicketsWithLock. -/
def insufficientMsg (found need : Nat) : String :=
  "insufficient locked seats for booking. Found " ++ String.mk (natToDigits found) ++
    " locked seats, need " ++ String.mk (natToDigits need) ++ ". Please select seats first"

/-- bookTicketsWithLock: lock the event row, validate timing
(time.Now().After(StartTime), i.e. strictly later), claim the held
seats in seat_no order, check sufficiency, reserve the claimed tickets,
decrement the event counter, and insert the pending booking
(total_amount = price * quantity, expires_at = now + BookingExpiration,
booking_ref = "BK" + nanosecond clock, modelled from now). -/
def bookTicketsWithLock (st : DBState) (req : BookingRequest) (now : Int)
    (bookingExpirationSeconds : Int) : Except String (DBState × Booking) :=
  match st.events.find? (fun e => e.id == req.eventId) with
  | none => .error "event not found"
  | some event =>
    if now > event.startTime then .error "event has already started"
    else
      let claimed := selectLockedSeats st req.eventId req.quantity
      let ticketIds := claimed.map Ticket.id
      if ticketIds.length < req.quantity then
        .error (insufficientMsg ticketIds.length req.quantity)
      else
        let booking : Booking :=
          { id := st.nextBookingId
            userId := req.userId
            eventId := req.eventId
            ticketIds := ticketIds
            quantity := req.quantity
            totalAmount := event.price * (req.quantity : Rat)
            status := .pending
            bookingRef := "BK" ++ String.mk (natToDigits now.toNat)
            expiresAt := now + bookingExpirationSeconds }
        .ok
          ({ st with
              tickets := st.tickets.map (reserveRow ticketIds now)
              events := st.events.map (decrementEventRow req.eventId req.quantity)
              bookings := st.bookings ++ [booking]
              nextBookingId := st.nextBookingId + 1 },
           booking)

/-- BookTickets = WithRetry(WithTransaction(bookTicketsWithLock)): an
error aborts the transaction, leaving the committed state unchanged;
none of the engine's own errors is a transient conflict, so the retry
loop returns the first outcome (retries re-run only on transient
database errors, which the sequential model does not produce). -/
def bookTickets (st : DBState) (req : BookingRequest) (now : Int)
    (bookingExpirationSeconds : Int) : DBState × Except String Booking :=
  match bookTicketsWithLock st req now bookingExpirationSeconds with
  | .ok (st', b) => (st', .ok b)
  | .error e => (st, .error e)

/-- ConfirmBooking: lock the booking row, reject a non-pending status,
reject time.Now().After(ExpiresAt), UPDATE the booking's tickets from
reserved to sold, require RowsAffected = len(ticket_ids), then mark the
booking confirmed.  The pair is (committed state, error). -/
def confirmBooking (st : DBState) (bookingId : Nat) (now : Int) :
    DBState × Option String :=
  match st.bookings.find? (fun b => b.id == bookingId) with
  | none => (st, some "booking not found")
  | some booking =>
    if booking.status != .pending then (st, some "booking is not in pending status")
    else if now > booking.expiresAt then (st, some "booking has expired")
    else
      let ticketIds := booking.ticketIds
      let rowsAffected :=
        st.tickets.countP (fun t => ticketIds.contains t.id && t.status == .reserved)
      if rowsAffected != ticketIds.length then
        (st, some "some tickets could not be confirmed")
      else
        ({ st with
            tickets := st.tickets.map (sellRow ticketIds now)
            bookings := st.bookings.map (confirmBookingRow bookingId) },
         none)

/-- CancelBooking: lock the booking row, reject an already-cancelled
booking, UPDATE every ticket in ticket_ids back to available (whatever
its current status), increment the event counter by the booking's
quantity, and mark the booking cancelled. -/
def cancelBooking (st : DBState) (bookingId : Nat) (now : Int) :
    DBState × Option String :=
  match st.bookings.find? (fun b => b.id == bookingId) with
  | none => (st, some "booking not found")
  | some booking =>
    if booking.status == .cancelled then (st, some "booking is already cancelled")
    else
      ({ st with
          tickets := st.tickets.map (releaseRow booking.ticketIds now)
          events := st.events.map (incrementEventRow booking.eventId booking.quantity)
          bookings := st.bookings.map (cancelBookingRow bookingId) },
       none)

/-! ### Transactional gateway (database.go) -/

/-- isRetryableError: substring tests against the PostgreSQL conflict
codes and the transient connection failures. -/
def isRetryableError (e : String) : Bool :=
  containsStr e "40001" || containsStr e "40P01" || containsStr e "deadlock" ||
    containsStr e "serialization failure" || containsStr e "connection" ||
    containsStr e "timeout"

/-- The error WithRetry returns when every attempt failed with a
retryable error: fmt.Errorf("operation failed after %d retries: %w",
maxRetries, err). -/
def retriesExhaustedMsg (maxRetries : Nat) (e : String) : String :=
  "operation failed after " ++ String.mk (natToDigits maxRetries) ++ " retries: " ++ e

/-- The loop body of WithRetry for i = attempt, attempt+1, ..., maxRetries.
fn gives the outcome of each invocation (none = success); ctxDone says
whether the context is already cancelled when the inter-attempt select
runs after attempt i.  Returns the final outcome together with the
number of times fn was invoked.  The fuel argument is maxRetries + 1 -
attempt, the number of loop iterations left. -/
def withRetryAux (fn : Nat → Option String) (ctxDone : Nat → Bool)
    (ctxErr : String) (maxRetries : Nat) : Nat → Nat → Option String × Nat
  | _, 0 => (none, 0)
  | i, fuel + 1 =>
    match fn i with
    | none => (none, 1)
    | some e =>
      if isRetryableError e then
        if i < maxRetries then
          if ctxDone i then (some ctxErr, 1)
          else
            let r := withRetryAux fn ctxDone ctxErr maxRetries (i + 1) fuel
            (r.1, r.2 + 1)
        else (some (retriesExhaustedMsg maxRetries e), 1)
      else (some e, 1)

/-- WithRetry from database.go. -/
def withRetry (maxRetries : Nat) (fn : Nat → Option String) (ctxDone : Nat → Bool)
    (ctxErr : String) : Option String × Nat :=
  withRetryAux fn ctxDone ctxErr maxRetries 0 (maxRetries + 1)

/-! ### Booking handler status-code mapping (the BookTickets HTTP handler) -/

/-- The status code the booking handler sends when BookTickets returns an
error: 500 unless the error text matches one of the hard-coded
substrings. -/
def bookErrorStatusCode (e : String) : Nat :=
  if containsStr e "insufficient tickets" || containsStr e "not found" then 400
  else if containsStr e "already started" then 400
  else 500

/-! ### System invariant

The denormalized events.available_tickets column is maintained by the
code as the number of the event's tickets that are available *or held*:
placing or releasing a seat hold never touches the counter, while book
subtracts and cancel adds the booking quantity.  The structural
conjuncts below are the facts the schema enforces (unique primary keys,
the unique (event_id, seat_no) constraint) together with the booking
coherence the protocol maintains. -/

/-- Is the ticket counted by events.available_tickets? -/
def countsAsAvailable (t : Ticket) : Bool :=
  t.status == .available || t.status == .locked

/-- Number of tickets of the event that are available or held. -/
def availLockedCount (st : DBState) (eventId : Nat) : Nat :=
  st.tickets.countP (fun t => t.eventId == eventId && countsAsAvailable t)

/-- Number of tickets of the event whose status is available (the
relation the spec asserts of the counter). -/
def availCount (st : DBState) (eventId : Nat) : Nat :=
  st.tickets.countP (fun t => t.eventId == eventId && t.status == .available)

/-- The equality the spec states for the counter column. -/
def specCounterEq (st : DBState) : Prop :=
  ∀ e ∈ st.events, e.availableTickets = (availCount st e.id : Int)

/-- The counter equality the code actually maintains. -/
def counterEq (st : DBState) : Prop :=
  ∀ e ∈ st.events, e.availableTickets = (availLockedCount st e.id : Int)

instance : DecidablePred specCounterEq := fun st =>
  inferInstanceAs (Decidable (∀ e ∈ st.events, _))

instance : DecidablePred counterEq := fun st =>
  inferInstanceAs (Decidable (∀ e ∈ st.events, _))

/-- Coherence of a pending or confirmed booking: each listed ticket id
denotes a ticket of the booking's event in the matching status. -/
def bookingRefsOk (st : DBState) (b : Booking) (s : TicketStatus) : Prop :=
  ∀ id ∈ b.ticketIds, ∃ t ∈ st.tickets, t.id = id ∧ t.eventId = b.eventId ∧ t.status = s

/-- The full inductive invariant of committed states. -/
def Inv (st : DBState) : Prop :=
  counterEq st ∧
  (st.tickets.map Ticket.id).Nodup ∧
  (st.tickets.map (fun t => (t.eventId, t.seatNo))).Nodup ∧
  (st.bookings.map Booking.id).Nodup ∧
  (∀ b ∈ st.bookings, b.id < st.nextBookingId) ∧
  (∀ b ∈ st.bookings, b.status ≠ .expired) ∧
  (∀ b ∈ st.bookings, b.ticketIds.Nodup ∧ b.quantity = b.ticketIds.length) ∧
  (∀ b ∈ st.bookings, b.status = .pending → bookingRefsOk st b .reserved) ∧
  (∀ b ∈ st.bookings, b.status = .confirmed → bookingRefsOk st b .sold) ∧
  List.Pairwise
    (fun b b' => b.status ≠ .cancelled → b'.status ≠ .cancelled →
      ∀ id ∈ b.ticketIds, id ∉ b'.ticketIds) st.bookings

instance (st : DBState) (b : Booking) (s : TicketStatus) :
    Decidable (bookingRefsOk st b s) :=
  inferInstanceAs (Decidable (∀ id ∈ b.ticketIds, _))

instance : DecidablePred Inv := fun st => by
  unfold Inv
  infer_instance

/-- One committed core mutation (the six operations of claim C1), in the
form the HTTP surface drives them; failed operations roll back and
commit the unchanged state. -/
inductive Step : DBState → DBState → Prop where
  | lock (eventId : Nat) (seatNo : String) (now : Int) :
      Step st (lockSeatTx st eventId seatNo now).1
  | unlock (eventId : Nat) (seatNo : String) (now : Int) :
      Step st (unlockSeat st eventId seatNo now)
  | cleanup (now : Int) (lockDurationSeconds : Nat) :
      Step st (cleanupExpiredLocks st now lockDurationSeconds).1
  | book (req : BookingRequest) (now ttl : Int) :
      Step st (bookTickets st req now ttl).1
  | confirm (bookingId : Nat) (now : Int) :
      Step st (confirmBooking st bookingId now).1
  | cancel (bookingId : Nat) (now : Int) :
      Step st (cancelBooking st bookingId now).1

/-! ### Counting helpers -/

lemma countP_map_eq_of_pointwise {α : Type} (l : List α) (f : α → α) (p : α → Bool)
    (h : ∀ a ∈ l, p (f a) = p a) : (l.map f).countP p = l.countP p := by
  rw [List.countP_map]
  exact List.countP_congr fun a ha => by simp [Function.comp, h a ha]

/-- Counting after rewriting rows: if predicate q agrees with p except on
the rows selected by flip, where p held and q fails, the q count is the
p count lowered by the flip count. -/
lemma countP_add_flip {α : Type} (l : List α) (p q flip : α → Bool)
    (h : ∀ a ∈ l, (flip a = true → p a = true ∧ q a = false) ∧
      (flip a = false → q a = p a)) :
    l.countP q + l.countP flip = l.countP p := by
  induction l with
  | nil => simp
  | cons a l ih =>
    have ha := h a (List.mem_cons_self a l)
    have ih' := ih fun x hx => h x (List.mem_cons_of_mem a hx)
    by_cases hf : flip a = true
    · obtain ⟨hp, hpf⟩ := ha.1 hf
      simp [List.countP_cons, hf, hp, hpf]
      omega
    · replace hf : flip a = false := by simpa using hf
      have hpe := ha.2 hf
      simp [List.countP_cons, hf, hpe]
      omega

/-- Counting after rewriting rows: if predicate q agrees with p except on
the rows selected by flip, where p failed and q holds, the q count is the
p count raised by the flip count. -/
lemma countP_sub_flip {α : Type} (l : List α) (p q flip : α → Bool)
    (h : ∀ a ∈ l, (flip a = true → p a = false ∧ q a = true) ∧
      (flip a = false → q a = p a)) :
    l.countP q = l.countP p + l.countP flip := by
  induction l with
  | nil => simp
  | cons a l ih =>
    have ha := h a (List.mem_cons_self a l)
    have ih' := ih fun x hx => h x (List.mem_cons_of_mem a hx)
    by_cases hf : flip a = true
    · obtain ⟨hp, hpf⟩ := ha.1 hf
      simp [List.countP_cons, hf, hp, hpf]
      omega
    · replace hf : flip a = false := by simpa using hf
      have hpe := ha.2 hf
      simp [List.countP_cons, hf, hpe]
      omega

/-- When ticket ids are unique, the rows whose id lies in a duplicate-free
id list that is fully realized in the table are counted exactly once per id. -/
lemma countP_contains_ids (l : List Ticket) (ids : List Nat)
    (hl : (l.map Ticket.id).Nodup) (hids : ids.Nodup)
    (hex : ∀ i ∈ ids, ∃ t ∈ l, t.id = i) :
    l.countP (fun t => ids.contains t.id) = ids.length := by
  rw [List.countP_eq_length_filter]
  have hsub : List.Sublist ((List.filter (fun t => ids.contains t.id) l).map Ticket.id)
      (l.map Ticket.id) :=
    (List.filter_sublist l).map Ticket.id
  have hnd : ((List.filter (fun t => ids.contains t.id) l).map Ticket.id).Nodup :=
    hsub.nodup hl
  have hperm : List.Perm ((List.filter (fun t => ids.contains t.id) l).map Ticket.id) ids := by
    refine (List.perm_ext_iff_of_nodup hnd hids).2 fun i => ?_
    constructor
    · intro hi
      obtain ⟨t, ht, rfl⟩ := List.mem_map.1 hi
      have := (List.mem_filter.1 ht).2
      simpa using this
    · intro hi
      obtain ⟨t, htl, rfl⟩ := hex i hi
      exact List.mem_map.2 ⟨t, List.mem_filter.2 ⟨htl, by simpa using hi⟩, rfl⟩
  have := hperm.length_eq
  simpa using this

/-- Injectivity of ticket ids on a table with unique ids. -/
lemma ticket_id_inj {l : List Ticket} (hl : (l.map Ticket.id).Nodup)
    {t u : Ticket} (ht : t ∈ l) (hu : u ∈ l) (h : t.id = u.id) : t = u :=
  List.inj_on_of_nodup_map hl ht hu h

/-- Injectivity of (event_id, seat_no) pairs on a table satisfying the
unique constraint. -/
lemma ticket_seat_inj {l : List Ticket}
    (hl : (l.map (fun t => (t.eventId, t.seatNo))).Nodup)
    {t u : Ticket} (ht : t ∈ l) (hu : u ∈ l)
    (he : t.eventId = u.eventId) (hs : t.seatNo = u.seatNo) : t = u :=
  List.inj_on_of_nodup_map hl ht hu (by rw [he, hs])

/-- Injectivity of booking ids. -/
lemma booking_id_inj {l : List Booking} (hl : (l.map Booking.id).Nodup)
    {b b' : Booking} (hb : b ∈ l) (hb' : b' ∈ l) (h : b.id = b'.id) : b = b' :=
  List.inj_on_of_nodup_map hl hb hb' h

/-! ### Invariant preservation -/

lemma map_preserving_field {α β : Type} (l : List α) (f : α → α) (g : α → β)
    (hg : ∀ a, g (f a) = g a) : (l.map f).map g = l.map g := by
  rw [List.map_map]
  exact List.map_congr_left fun a _ => hg a

/-- Booking coherence survives a ticket rewrite that fixes the rows the
booking references. -/
lemma bookingRefsOk_map (st : DBState) (b : Booking) (s : TicketStatus)
    (f : Ticket → Ticket) (h : bookingRefsOk st b s)
    (hf : ∀ t ∈ st.tickets, t.status = s → t.id ∈ b.ticketIds → f t = t) :
    bookingRefsOk { st with tickets := st.tickets.map f } b s := by
  intro id hid
  obtain ⟨t, ht, hid', hev, hs⟩ := h id hid
  refine ⟨f t, List.mem_map_of_mem f ht, ?_⟩
  rw [hf t ht hs (by rw [hid']; exact hid)]
  exact ⟨hid', hev, hs⟩

/-- Counter predicate for an event id. -/
def evCounts (eid : Nat) (t : Ticket) : Bool :=
  t.eventId == eid && countsAsAvailable t

lemma availLockedCount_eq_countP (st : DBState) (eid : Nat) :
    availLockedCount st eid = st.tickets.countP (evCounts eid) := rfl

/-- A ticket rewrite that never changes which events' counters a row feeds
preserves the counter equality when the events are untouched. -/
lemma counterEq_tickets_map (st : DBState) (f : Ticket → Ticket)
    (h1 : counterEq st)
    (hpt : ∀ eid : Nat, ∀ u ∈ st.tickets, evCounts eid (f u) = evCounts eid u) :
    counterEq { st with tickets := st.tickets.map f } := by
  intro e he
  have hb := h1 e he
  rw [availLockedCount_eq_countP] at hb ⊢
  dsimp only
  rw [List.countP_map]
  rw [hb]
  congr 1
  exact List.countP_congr fun u hu => by
    simp only [Function.comp_apply]
    rw [hpt e.id u hu]

lemma inv_tickets_nodup_map (st : DBState) (f : Ticket → Ticket)
    (hid : ∀ u, (f u).id = u.id) (h : (st.tickets.map Ticket.id).Nodup) :
    ((st.tickets.map f).map Ticket.id).Nodup := by
  rw [map_preserving_field _ _ _ hid]; exact h

lemma inv_seats_nodup_map (st : DBState) (f : Ticket → Ticket)
    (hpair : ∀ u, ((f u).eventId, (f u).seatNo) = (u.eventId, u.seatNo))
    (h : (st.tickets.map (fun t => (t.eventId, t.seatNo))).Nodup) :
    ((st.tickets.map f).map (fun t => (t.eventId, t.seatNo))).Nodup := by
  rw [map_preserving_field _ _ _ hpair]; exact h

lemma unlockRow_id (eid : Nat) (sn : String) (now : Int) (u : Ticket) :
    (unlockRow eid sn now u).id = u.id := by
  unfold unlockRow; split <;> rfl

lemma unlockRow_pair (eid : Nat) (sn : String) (now : Int) (u : Ticket) :
    ((unlockRow eid sn now u).eventId, (unlockRow eid sn now u).seatNo) =
      (u.eventId, u.seatNo) := by
  unfold unlockRow; split <;> rfl

lemma unlockRow_evCounts (eid : Nat) (sn : String) (now : Int) (eid' : Nat) (u : Ticket) :
    evCounts eid' (unlockRow eid sn now u) = evCounts eid' u := by
  unfold unlockRow
  by_cases hsm : seatMatch eid sn u = true
  · by_cases hst : u.status = TicketStatus.locked
    · simp [hsm, hst, evCounts, countsAsAvailable]
    · simp [hsm, hst, evCounts, countsAsAvailable]
  · simp [hsm, evCounts]

lemma unlockRow_fix_of_status (eid : Nat) (sn : String) (now : Int) (u : Ticket)
    (h : u.status ≠ .locked) : unlockRow eid sn now u = u := by
  unfold unlockRow
  rw [if_neg]
  simp only [Bool.and_eq_true, beq_iff_eq]
  rintro ⟨-, h'⟩
  exact h h'

/-- UnlockSeat preserves the full invariant: it rewrites only held rows,
and a held row counts toward the event counter both before and after. -/
lemma inv_unlock (st : DBState) (eid : Nat) (sn : String) (now : Int)
    (h : Inv st) : Inv (unlockSeat st eid sn now) := by
  obtain ⟨h1, h2, h3, h4, h5, h6, h7, h8, h9, h10⟩ := h
  unfold unlockSeat
  refine ⟨?_, ?_, ?_, h4, h5, h6, h7, ?_, ?_, h10⟩
  · exact counterEq_tickets_map st _ h1 fun eid' u _ => unlockRow_evCounts eid sn now eid' u
  · exact inv_tickets_nodup_map st _ (unlockRow_id eid sn now) h2
  · exact inv_seats_nodup_map st _ (unlockRow_pair eid sn now) h3
  · intro b hb hst
    exact bookingRefsOk_map st b .reserved _ (h8 b hb hst) fun t _ hts _ =>
      unlockRow_fix_of_status eid sn now t (by rw [hts]; intro hx; cases hx)
  · intro b hb hst
    exact bookingRefsOk_map st b .sold _ (h9 b hb hst) fun t _ hts _ =>
      unlockRow_fix_of_status eid sn now t (by rw [hts]; intro hx; cases hx)

lemma reclaimRow_id (now : Int) (ttl : Nat) (u : Ticket) :
    (reclaimRow now ttl u).id = u.id := by
  unfold reclaimRow; split <;> rfl

lemma reclaimRow_pair (now : Int) (ttl : Nat) (u : Ticket) :
    ((reclaimRow now ttl u).eventId, (reclaimRow now ttl u).seatNo) =
      (u.eventId, u.seatNo) := by
  unfold reclaimRow; split <;> rfl

lemma reclaimRow_evCounts (now : Int) (ttl : Nat) (eid' : Nat) (u : Ticket) :
    evCounts eid' (reclaimRow now ttl u) = evCounts eid' u := by
  unfold reclaimRow
  by_cases hc : staleLock now ttl u = true
  · have hst : u.status = .locked := by
      have := hc
      unfold staleLock at this
      rw [Bool.and_eq_true] at this
      simpa using this.1
    simp [hc, evCounts, countsAsAvailable, hst]
  · simp [hc]

lemma reclaimRow_fix_of_status (now : Int) (ttl : Nat) (u : Ticket)
    (h : u.status ≠ .locked) : reclaimRow now ttl u = u := by
  unfold reclaimRow
  rw [if_neg]
  unfold staleLock
  rw [Bool.and_eq_true]
  rintro ⟨h', -⟩
  exact h (by simpa using h')

/-- CleanupExpiredLocks preserves the full invariant: it rewrites only
held rows, which count toward the counter before and after. -/
lemma inv_cleanup (st : DBState) (now : Int) (ttl : Nat)
    (h : Inv st) : Inv (cleanupExpiredLocks st now ttl).1 := by
  obtain ⟨h1, h2, h3, h4, h5, h6, h7, h8, h9, h10⟩ := h
  unfold cleanupExpiredLocks
  refine ⟨?_, ?_, ?_, h4, h5, h6, h7, ?_, ?_, h10⟩
  · exact counterEq_tickets_map st _ h1 fun eid' u _ => reclaimRow_evCounts now ttl eid' u
  · exact inv_tickets_nodup_map st _ (reclaimRow_id now ttl) h2
  · exact inv_seats_nodup_map st _ (reclaimRow_pair now ttl) h3
  · intro b hb hst
    exact bookingRefsOk_map st b .reserved _ (h8 b hb hst) fun t _ hts _ =>
      reclaimRow_fix_of_status now ttl t (by rw [hts]; intro hx; cases hx)
  · intro b hb hst
    exact bookingRefsOk_map st b .sold _ (h9 b hb hst) fun t _ hts _ =>
      reclaimRow_fix_of_status now ttl t (by rw [hts]; intro hx; cases hx)

lemma lockRow_id (eid : Nat) (sn : String) (now : Int) (u : Ticket) :
    (lockRow eid sn now u).id = u.id := by
  unfold lockRow; split <;> rfl

lemma lockRow_pair (eid : Nat) (sn : String) (now : Int) (u : Ticket) :
    ((lockRow eid sn now u).eventId, (lockRow eid sn now u).seatNo) =
      (u.eventId, u.seatNo) := by
  unfold lockRow; split <;> rfl

lemma seatMatch_spec {eid : Nat} {sn : String} {u : Ticket}
    (h : seatMatch eid sn u = true) : u.eventId = eid ∧ u.seatNo = sn := by
  unfold seatMatch at h
  rw [Bool.and_eq_true] at h
  exact ⟨by simpa using h.1, by simpa using h.2⟩

/-- Under the unique (event_id, seat_no) constraint, the row found by the
seat lookup is the only row the seat-targeted UPDATE touches. -/
lemma seatMatch_unique {st : DBState} {eid : Nat} {sn : String} {t0 u : Ticket}
    (h3 : (st.tickets.map (fun t => (t.eventId, t.seatNo))).Nodup)
    (ht0 : t0 ∈ st.tickets) (hm0 : seatMatch eid sn t0 = true)
    (hu : u ∈ st.tickets) (hmu : seatMatch eid sn u = true) : u = t0 := by
  obtain ⟨he0, hs0⟩ := seatMatch_spec hm0
  obtain ⟨heu, hsu⟩ := seatMatch_spec hmu
  exact ticket_seat_inj h3 hu ht0 (by rw [heu, he0]) (by rw [hsu, hs0])

/-- LockSeat's successful UPDATE preserves the full invariant: it flips
the single available row of the seat to held. -/
lemma inv_lock_success (st : DBState) (eid : Nat) (sn : String) (now : Int)
    (t0 : Ticket) (hfind : st.tickets.find? (seatMatch eid sn) = some t0)
    (hav : t0.status = .available) (h : Inv st) :
    Inv { st with tickets := st.tickets.map (lockRow eid sn now) } := by
  obtain ⟨h1, h2, h3, h4, h5, h6, h7, h8, h9, h10⟩ := h
  have ht0 : t0 ∈ st.tickets := List.mem_of_find?_eq_some hfind
  have hm0 : seatMatch eid sn t0 = true := List.find?_some hfind
  refine ⟨?_, ?_, ?_, h4, h5, h6, h7, ?_, ?_, h10⟩
  · refine counterEq_tickets_map st _ h1 fun eid' u hu => ?_
    unfold lockRow
    by_cases hc : seatMatch eid sn u = true
    · have : u = t0 := seatMatch_unique h3 ht0 hm0 hu hc
      subst this
      simp [hc, evCounts, countsAsAvailable, hav]
    · simp [hc]
  · exact inv_tickets_nodup_map st _ (lockRow_id eid sn now) h2
  · exact inv_seats_nodup_map st _ (lockRow_pair eid sn now) h3
  · intro b hb hst
    refine bookingRefsOk_map st b .reserved _ (h8 b hb hst) fun t htl hts _ => ?_
    unfold lockRow
    rw [if_neg]
    intro hc
    have : t = t0 := seatMatch_unique h3 ht0 hm0 htl hc
    rw [this, hav] at hts
    cases hts
  · intro b hb hst
    refine bookingRefsOk_map st b .sold _ (h9 b hb hst) fun t htl hts _ => ?_
    unfold lockRow
    rw [if_neg]
    intro hc
    have : t = t0 := seatMatch_unique h3 ht0 hm0 htl hc
    rw [this, hav] at hts
    cases hts

/-- The committed state of a LockSeat transaction preserves the invariant
(error paths roll back). -/
lemma inv_lockTx (st : DBState) (eid : Nat) (sn : String) (now : Int)
    (h : Inv st) : Inv (lockSeatTx st eid sn now).1 := by
  unfold lockSeatTx lockSeat
  cases hfind : st.tickets.find? (seatMatch eid sn) with
  | none => exact h
  | some t0 =>
    by_cases hav : (t0.status != TicketStatus.available) = true
    · simp only [hav, if_true]
      exact h
    · have hav' : t0.status = .available := by
        simpa using hav
      simp only [hav, if_false]
      by_cases hz : (st.tickets.countP (seatMatch eid sn) == 0) = true
      · simp only [hz, if_true]
        exact h
      · simp only [hz, if_false]
        exact inv_lock_success st eid sn now t0 hfind hav' h

lemma sellRow_id (ids : List Nat) (now : Int) (u : Ticket) :
    (sellRow ids now u).id = u.id := by
  unfold sellRow; split <;> rfl

lemma sellRow_pair (ids : List Nat) (now : Int) (u : Ticket) :
    ((sellRow ids now u).eventId, (sellRow ids now u).seatNo) = (u.eventId, u.seatNo) := by
  unfold sellRow; split <;> rfl

/-- Selling a reserved row never changes whether it feeds the counter. -/
lemma sellRow_evCounts (ids : List Nat) (now : Int) (eid' : Nat) (u : Ticket) :
    evCounts eid' (sellRow ids now u) = evCounts eid' u := by
  have e1 : (TicketStatus.sold == TicketStatus.available ||
      TicketStatus.sold == TicketStatus.locked) = false := by decide
  have e2 : (TicketStatus.reserved == TicketStatus.available ||
      TicketStatus.reserved == TicketStatus.locked) = false := by decide
  by_cases hm : u.id ∈ ids
  · by_cases hst : u.status = TicketStatus.reserved
    · simp [sellRow, hm, hst, evCounts, countsAsAvailable, e1, e2]
    · simp [sellRow, hm, hst, evCounts]
  · simp [sellRow, hm, evCounts]

lemma sellRow_fix_of_status (ids : List Nat) (now : Int) (u : Ticket)
    (h : u.status ≠ .reserved) : sellRow ids now u = u := by
  unfold sellRow
  rw [if_neg]
  rw [Bool.and_eq_true]
  rintro ⟨-, h'⟩
  exact h (by simpa using h')

lemma sellRow_fix_of_not_mem (ids : List Nat) (now : Int) (u : Ticket)
    (h : u.id ∉ ids) : sellRow ids now u = u := by
  unfold sellRow
  rw [if_neg]
  rw [Bool.and_eq_true]
  rintro ⟨h', -⟩
  exact h (by simpa using h')

lemma confirmBookingRow_id (bid : Nat) (b : Booking) :
    (confirmBookingRow bid b).id = b.id := by
  unfold confirmBookingRow; split <;> rfl

lemma confirmBookingRow_fields (bid : Nat) (b : Booking) :
    (confirmBookingRow bid b).ticketIds = b.ticketIds ∧
      (confirmBookingRow bid b).quantity = b.quantity ∧
      (confirmBookingRow bid b).eventId = b.eventId := by
  unfold confirmBookingRow; split <;> exact ⟨rfl, rfl, rfl⟩

/-- The active-booking disjointness relation is symmetric. -/
lemma disjointRel_symm :
    Symmetric (fun b b' : Booking => b.status ≠ BookingStatus.cancelled →
      b'.status ≠ BookingStatus.cancelled → ∀ id ∈ b.ticketIds, id ∉ b'.ticketIds) := by
  intro a b hab ha hb id hid hmem
  exact hab hb ha id hmem hid

/-- ConfirmBooking's successful transaction preserves the invariant. -/
lemma inv_confirm_success (st : DBState) (bid : Nat) (now : Int) (b0 : Booking)
    (hfind : st.bookings.find? (fun b => b.id == bid) = some b0)
    (hpend : b0.status = .pending) (h : Inv st) :
    Inv { st with
            tickets := st.tickets.map (sellRow b0.ticketIds now)
            bookings := st.bookings.map (confirmBookingRow bid) } := by
  obtain ⟨h1, h2, h3, h4, h5, h6, h7, h8, h9, h10⟩ := h
  have hb0 : b0 ∈ st.bookings := List.mem_of_find?_eq_some hfind
  have hb0id : b0.id = bid := by
    have := List.find?_some hfind
    simpa using this
  have hrow_of_mem : ∀ b ∈ st.bookings, b.id = bid → b = b0 := fun b hb hid =>
    booking_id_inj h4 hb hb0 (by rw [hid, hb0id])
  refine ⟨?_, ?_, ?_, ?_, ?_, ?_, ?_, ?_, ?_, ?_⟩
  · exact counterEq_tickets_map st _ h1 fun eid' u _ => sellRow_evCounts b0.ticketIds now eid' u
  · exact inv_tickets_nodup_map st _ (sellRow_id b0.ticketIds now) h2
  · exact inv_seats_nodup_map st _ (sellRow_pair b0.ticketIds now) h3
  · dsimp only
    rw [map_preserving_field _ _ _ (confirmBookingRow_id bid)]
    exact h4
  · intro b hb
    obtain ⟨b', hb', rfl⟩ := List.mem_map.1 hb
    rw [confirmBookingRow_id]
    exact h5 b' hb'
  · intro b hb
    obtain ⟨b', hb', rfl⟩ := List.mem_map.1 hb
    unfold confirmBookingRow
    split
    · intro hx
      cases hx
    · exact h6 b' hb'
  · intro b hb
    obtain ⟨b', hb', rfl⟩ := List.mem_map.1 hb
    rw [(confirmBookingRow_fields bid b').1, (confirmBookingRow_fields bid b').2.1]
    exact h7 b' hb'
  · -- pending bookings keep reserved references: they are disjoint from b0
    intro b hb hst
    obtain ⟨b', hb', rfl⟩ := List.mem_map.1 hb
    have hbid : b'.id ≠ bid := by
      intro hx
      have : b' = b0 := hrow_of_mem b' hb' hx
      subst this
      unfold confirmBookingRow at hst
      rw [if_pos (by simpa using hb0id)] at hst
      cases hst
    have hrow : confirmBookingRow bid b' = b' := by
      unfold confirmBookingRow
      rw [if_neg (by simpa using hbid)]
    rw [hrow] at hst ⊢
    have hdisj : ∀ id ∈ b'.ticketIds, id ∉ b0.ticketIds := by
      by_cases hbb : b' = b0
      · subst hbb
        exact absurd hb0id hbid
      · have := List.Pairwise.forall disjointRel_symm h10 hb' hb0 hbb
        exact this (by rw [hst]; intro hx; cases hx) (by rw [hpend]; intro hx; cases hx)
    have := h8 b' hb' hst
    exact bookingRefsOk_map st b' .reserved _ this fun t _ _ hmem =>
      sellRow_fix_of_not_mem b0.ticketIds now t fun hin => hdisj t.id hmem hin
  · -- confirmed bookings: b0 itself gets sold references, others are untouched
    intro b hb hst
    obtain ⟨b', hb', rfl⟩ := List.mem_map.1 hb
    by_cases hbid : b'.id = bid
    · have : b' = b0 := hrow_of_mem b' hb' hbid
      subst this
      have hrow : confirmBookingRow bid b' = { b' with status := .confirmed } := by
        unfold confirmBookingRow
        rw [if_pos (by simpa using hbid)]
      rw [hrow]
      intro id hid
      obtain ⟨t, ht, hid', hev, hts⟩ := h8 b' hb' hpend id hid
      refine ⟨sellRow b'.ticketIds now t, List.mem_map_of_mem _ ht, ?_⟩
      have hsell : sellRow b'.ticketIds now t =
          { t with status := .sold, updatedAt := now } := by
        unfold sellRow
        rw [if_pos]
        rw [Bool.and_eq_true]
        exact ⟨by simpa using (by rw [hid']; exact hid : t.id ∈ b'.ticketIds),
          by simpa using hts⟩
      rw [hsell]
      exact ⟨hid', hev, rfl⟩
    · have hrow : confirmBookingRow bid b' = b' := by
        unfold confirmBookingRow
        rw [if_neg (by simpa using hbid)]
      rw [hrow] at hst ⊢
      have := h9 b' hb' hst
      exact bookingRefsOk_map st b' .sold _ this fun t _ hts _ =>
        sellRow_fix_of_status b0.ticketIds now t (by rw [hts]; intro hx; cases hx)
  · -- pairwise disjointness: statuses only move toward confirmed
    dsimp only
    rw [List.pairwise_map]
    refine List.Pairwise.imp_of_mem ?_ h10
    intro a b ha hb hImp hca hcb id hid hmem
    have hfa := confirmBookingRow_fields bid a
    have hfb := confirmBookingRow_fields bid b
    have hca' : a.status ≠ .cancelled := by
      intro hx
      have : confirmBookingRow bid a = a := by
        unfold confirmBookingRow
        rw [if_neg]
        intro hax
        have : a = b0 := hrow_of_mem a ha (by simpa using hax)
        rw [this, hpend] at hx
        cases hx
      rw [this] at hca
      exact hca hx
    have hcb' : b.status ≠ .cancelled := by
      intro hx
      have : confirmBookingRow bid b = b := by
        unfold confirmBookingRow
        rw [if_neg]
        intro hbx
        have : b = b0 := hrow_of_mem b hb (by simpa using hbx)
        rw [this, hpend] at hx
        cases hx
      rw [this] at hcb
      exact hcb hx
    rw [hfa.1] at hid
    rw [hfb.1] at hmem
    exact hImp hca' hcb' id hid hmem

/-- The committed state of a ConfirmBooking call preserves the invariant. -/
lemma inv_confirmTx (st : DBState) (bid : Nat) (now : Int)
    (h : Inv st) : Inv (confirmBooking st bid now).1 := by
  unfold confirmBooking
  cases hfind : st.bookings.find? (fun b => b.id == bid) with
  | none => exact h
  | some b0 =>
    by_cases hpend : (b0.status != BookingStatus.pending) = true
    · simp only [hpend, if_true]
      exact h
    · have hpend' : b0.status = .pending := by simpa using hpend
      simp only [hpend, if_false]
      by_cases hexp : now > b0.expiresAt
      · simp only [if_pos hexp]
        exact h
      · simp only [if_neg hexp]
        by_cases hcnt : (st.tickets.countP
            (fun t => b0.ticketIds.contains t.id && t.status == TicketStatus.reserved) !=
              b0.ticketIds.length) = true
        · simp only [hcnt, if_true]
          exact h
        · simp only [hcnt, if_false]
          exact inv_confirm_success st bid now b0 hfind hpend' h

lemma releaseRow_id (ids : List Nat) (now : Int) (u : Ticket) :
    (releaseRow ids now u).id = u.id := by
  unfold releaseRow; split <;> rfl

lemma releaseRow_pair (ids : List Nat) (now : Int) (u : Ticket) :
    ((releaseRow ids now u).eventId, (releaseRow ids now u).seatNo) =
      (u.eventId, u.seatNo) := by
  unfold releaseRow; split <;> rfl

lemma releaseRow_fix_of_not_mem (ids : List Nat) (now : Int) (u : Ticket)
    (h : u.id ∉ ids) : releaseRow ids now u = u := by
  unfold releaseRow
  rw [if_neg]
  intro h'
  exact h (by simpa using h')

lemma releaseRow_of_mem (ids : List Nat) (now : Int) (u : Ticket)
    (h : u.id ∈ ids) : releaseRow ids now u =
      { u with status := .available, updatedAt := now } := by
  unfold releaseRow
  rw [if_pos (by simpa using h)]

lemma cancelBookingRow_id (bid : Nat) (b : Booking) :
    (cancelBookingRow bid b).id = b.id := by
  unfold cancelBookingRow; split <;> rfl

lemma cancelBookingRow_fields (bid : Nat) (b : Booking) :
    (cancelBookingRow bid b).ticketIds = b.ticketIds ∧
      (cancelBookingRow bid b).quantity = b.quantity ∧
      (cancelBookingRow bid b).eventId = b.eventId := by
  unfold cancelBookingRow; split <;> exact ⟨rfl, rfl, rfl⟩

/-- A status other than available/held does not feed the counter. -/
lemma countsAsAvailable_false {s : TicketStatus}
    (h1 : s ≠ .available) (h2 : s ≠ .locked) :
    (TicketStatus.available == s || s == TicketStatus.locked) = false := by
  cases s <;> first
    | rfl
    | exact absurd rfl h1
    | exact absurd rfl h2

/-- CancelBooking's successful transaction preserves the invariant: the
booking's tickets (reserved if pending, sold if confirmed) return to
available, matching the counter increment by the booking quantity. -/
lemma inv_cancel_success (st : DBState) (bid : Nat) (now : Int) (b0 : Booking)
    (hfind : st.bookings.find? (fun b => b.id == bid) = some b0)
    (hnc : b0.status ≠ .cancelled) (h : Inv st) :
    Inv { st with
            tickets := st.tickets.map (releaseRow b0.ticketIds now)
            events := st.events.map (incrementEventRow b0.eventId b0.quantity)
            bookings := st.bookings.map (cancelBookingRow bid) } := by
  obtain ⟨h1, h2, h3, h4, h5, h6, h7, h8, h9, h10⟩ := h
  have hb0 : b0 ∈ st.bookings := List.mem_of_find?_eq_some hfind
  have hb0id : b0.id = bid := by
    have := List.find?_some hfind
    simpa using this
  have hrow_of_mem : ∀ b ∈ st.bookings, b.id = bid → b = b0 := fun b hb hid =>
    booking_id_inj h4 hb hb0 (by rw [hid, hb0id])
  -- the booking is pending or confirmed; fix the status its tickets carry
  obtain ⟨s0, hrefs, hs0a, hs0l⟩ :
      ∃ s0, bookingRefsOk st b0 s0 ∧ s0 ≠ TicketStatus.available ∧
        s0 ≠ TicketStatus.locked := by
    cases hst : b0.status with
    | pending =>
      exact ⟨.reserved, h8 b0 hb0 hst, by decide, by decide⟩
    | confirmed =>
      exact ⟨.sold, h9 b0 hb0 hst, by decide, by decide⟩
    | cancelled => exact absurd hst hnc
    | expired => exact absurd hst (h6 b0 hb0)
  -- each referenced id denotes exactly one row, with status s0 and the event
  have hrowfact : ∀ u ∈ st.tickets, u.id ∈ b0.ticketIds →
      u.status = s0 ∧ u.eventId = b0.eventId := by
    intro u hu hmem
    obtain ⟨t, ht, hid', hev, hts⟩ := hrefs u.id hmem
    have : t = u := ticket_id_inj h2 ht hu hid'
    subst this
    exact ⟨hts, hev⟩
  refine ⟨?_, ?_, ?_, ?_, ?_, ?_, ?_, ?_, ?_, ?_⟩
  · -- counter equality
    intro e he
    dsimp only at he ⊢
    obtain ⟨e', he', rfl⟩ := List.mem_map.1 he
    have hbase := h1 e' he'
    rw [availLockedCount_eq_countP] at hbase ⊢
    dsimp only
    rw [List.countP_map]
    by_cases hev : (e'.id == b0.eventId) = true
    · have hev' : e'.id = b0.eventId := by simpa using hev
      have hflip : st.tickets.countP (fun u => b0.ticketIds.contains u.id) =
          b0.ticketIds.length :=
        countP_contains_ids st.tickets b0.ticketIds h2 (h7 b0 hb0).1
          fun i hi => (hrefs i hi).elim fun t ht => ⟨t, ht.1, ht.2.1⟩
      have hcnt := countP_sub_flip st.tickets (evCounts e'.id)
          (fun u => evCounts e'.id (releaseRow b0.ticketIds now u))
          (fun u => b0.ticketIds.contains u.id) ?_
      · unfold incrementEventRow
        rw [if_pos hev]
        dsimp only
        have hq := (h7 b0 hb0).2
        rw [Function.comp_def]
        rw [hcnt, hflip]
        rw [hbase]
        push_cast
        omega
      · intro u hu
        dsimp only
        constructor
        · intro hflipu
          have hmem : u.id ∈ b0.ticketIds := by simpa using hflipu
          obtain ⟨hus, hue⟩ := hrowfact u hu hmem
          constructor
          · unfold evCounts countsAsAvailable
            rw [hus]
            rw [Bool.and_eq_false_iff]
            right
            cases s0 <;> first
              | rfl
              | exact absurd rfl hs0a
              | exact absurd rfl hs0l
          · rw [releaseRow_of_mem _ _ _ hmem]
            unfold evCounts countsAsAvailable
            dsimp only
            rw [hue, hev']
            simp
        · intro hflipu
          rw [releaseRow_fix_of_not_mem _ _ _ (by simpa using hflipu)]
    · -- an event other than the booking's: counter and count both unchanged
      unfold incrementEventRow
      rw [if_neg hev]
      rw [hbase]
      congr 1
      refine List.countP_congr fun u hu => ?_
      simp only [Function.comp_apply]
      by_cases hmem : u.id ∈ b0.ticketIds
      · obtain ⟨hus, hue⟩ := hrowfact u hu hmem
        rw [releaseRow_of_mem _ _ _ hmem]
        unfold evCounts
        dsimp only
        rw [hue]
        have : (b0.eventId == e'.id) = false := by
          rw [beq_eq_false_iff_ne]
          intro hx
          rw [beq_iff_eq] at hev
          exact hev hx.symm
        rw [this]
        simp
      · rw [releaseRow_fix_of_not_mem _ _ _ hmem]
  · exact inv_tickets_nodup_map st _ (releaseRow_id b0.ticketIds now) h2
  · exact inv_seats_nodup_map st _ (releaseRow_pair b0.ticketIds now) h3
  · dsimp only
    rw [map_preserving_field _ _ _ (cancelBookingRow_id bid)]
    exact h4
  · intro b hb
    obtain ⟨b', hb', rfl⟩ := List.mem_map.1 hb
    rw [cancelBookingRow_id]
    exact h5 b' hb'
  · intro b hb
    obtain ⟨b', hb', rfl⟩ := List.mem_map.1 hb
    unfold cancelBookingRow
    split
    · intro hx; cases hx
    · exact h6 b' hb'
  · intro b hb
    obtain ⟨b', hb', rfl⟩ := List.mem_map.1 hb
    rw [(cancelBookingRow_fields bid b').1, (cancelBookingRow_fields bid b').2.1]
    exact h7 b' hb'
  · intro b hb hst
    obtain ⟨b', hb', rfl⟩ := List.mem_map.1 hb
    have hbid : b'.id ≠ bid := by
      intro hx
      unfold cancelBookingRow at hst
      rw [if_pos (by simpa using hx)] at hst
      cases hst
    have hrow : cancelBookingRow bid b' = b' := by
      unfold cancelBookingRow
      rw [if_neg (by simpa using hbid)]
    rw [hrow] at hst ⊢
    have hne : b' ≠ b0 := fun hx => hbid (by rw [hx, hb0id])
    have hdisj := List.Pairwise.forall disjointRel_symm h10 hb' hb0 hne
      (by rw [hst]; intro hx; cases hx) hnc
    exact bookingRefsOk_map st b' .reserved _ (h8 b' hb' hst) fun t _ _ hmem =>
      releaseRow_fix_of_not_mem b0.ticketIds now t fun hin => hdisj t.id hmem hin
  · intro b hb hst
    obtain ⟨b', hb', rfl⟩ := List.mem_map.1 hb
    have hbid : b'.id ≠ bid := by
      intro hx
      unfold cancelBookingRow at hst
      rw [if_pos (by simpa using hx)] at hst
      cases hst
    have hrow : cancelBookingRow bid b' = b' := by
      unfold cancelBookingRow
      rw [if_neg (by simpa using hbid)]
    rw [hrow] at hst ⊢
    have hne : b' ≠ b0 := fun hx => hbid (by rw [hx, hb0id])
    have hdisj := List.Pairwise.forall disjointRel_symm h10 hb' hb0 hne
      (by rw [hst]; intro hx; cases hx) hnc
    exact bookingRefsOk_map st b' .sold _ (h9 b' hb' hst) fun t _ _ hmem =>
      releaseRow_fix_of_not_mem b0.ticketIds now t fun hin => hdisj t.id hmem hin
  · dsimp only
    rw [List.pairwise_map]
    refine List.Pairwise.imp_of_mem ?_ h10
    intro a b _ _ hImp hca hcb id hid hmem
    have hca' : a.status ≠ .cancelled := by
      intro hx
      have : (cancelBookingRow bid a).status = .cancelled := by
        unfold cancelBookingRow
        split
        · rfl
        · exact hx
      exact hca this
    have hcb' : b.status ≠ .cancelled := by
      intro hx
      have : (cancelBookingRow bid b).status = .cancelled := by
        unfold cancelBookingRow
        split
        · rfl
        · exact hx
      exact hcb this
    rw [(cancelBookingRow_fields bid a).1] at hid
    rw [(cancelBookingRow_fields bid b).1] at hmem
    exact hImp hca' hcb' id hid hmem

/-- The committed state of a CancelBooking call preserves the invariant. -/
lemma inv_cancelTx (st : DBState) (bid : Nat) (now : Int)
    (h : Inv st) : Inv (cancelBooking st bid now).1 := by
  unfold cancelBooking
  cases hfind : st.bookings.find? (fun b => b.id == bid) with
  | none => exact h
  | some b0 =>
    by_cases hc : (b0.status == BookingStatus.cancelled) = true
    · simp only [hc, if_true]
      exact h
    · simp only [hc, if_false]
      exact inv_cancel_success st bid now b0 hfind (by simpa using hc) h

lemma reserveRow_id (ids : List Nat) (now : Int) (u : Ticket) :
    (reserveRow ids now u).id = u.id := by
  unfold reserveRow; split <;> rfl

lemma reserveRow_pair (ids : List Nat) (now : Int) (u : Ticket) :
    ((reserveRow ids now u).eventId, (reserveRow ids now u).seatNo) =
      (u.eventId, u.seatNo) := by
  unfold reserveRow; split <;> rfl

lemma reserveRow_fix_of_not_mem (ids : List Nat) (now : Int) (u : Ticket)
    (h : u.id ∉ ids) : reserveRow ids now u = u := by
  unfold reserveRow
  rw [if_neg]
  intro h'
  exact h (by simpa using h')

lemma reserveRow_of_mem (ids : List Nat) (now : Int) (u : Ticket)
    (h : u.id ∈ ids) : reserveRow ids now u =
      { u with status := .reserved, updatedAt := now } := by
  unfold reserveRow
  rw [if_pos (by simpa using h)]

/-- Every claimed seat is a held row of the requested event. -/
lemma selectLockedSeats_spec (st : DBState) (eid q : Nat) :
    ∀ c ∈ selectLockedSeats st eid q,
      c ∈ st.tickets ∧ c.eventId = eid ∧ c.status = .locked := by
  intro c hc
  unfold selectLockedSeats at hc
  have h1 := List.mem_of_mem_take hc
  rw [List.mem_insertionSort] at h1
  have h2 := List.mem_filter.1 h1
  have h3 := h2.2
  rw [Bool.and_eq_true] at h3
  exact ⟨h2.1, by simpa using h3.1, by simpa using h3.2⟩

/-- The claimed seats carry pairwise-distinct ids. -/
lemma selectLockedSeats_nodup_ids (st : DBState) (eid q : Nat)
    (h2 : (st.tickets.map Ticket.id).Nodup) :
    ((selectLockedSeats st eid q).map Ticket.id).Nodup := by
  unfold selectLockedSeats
  rw [List.map_take]
  refine List.Nodup.sublist (List.take_sublist _ _) ?_
  have hfil : ((st.tickets.filter
      (fun t => t.eventId == eid && t.status == TicketStatus.locked)).map Ticket.id).Nodup :=
    List.Nodup.sublist ((List.filter_sublist st.tickets).map Ticket.id) h2
  have hperm := (List.perm_insertionSort seatLe
    (st.tickets.filter (fun t => t.eventId == eid && t.status == TicketStatus.locked))).map
    Ticket.id
  exact hperm.nodup_iff.2 hfil

/-- A table row whose id appears among the claimed ids is itself one of
the claimed rows. -/
lemma mem_claimed_of_id (st : DBState) (eid q : Nat)
    (h2 : (st.tickets.map Ticket.id).Nodup) {u : Ticket} (hu : u ∈ st.tickets)
    (hmem : u.id ∈ (selectLockedSeats st eid q).map Ticket.id) :
    u ∈ selectLockedSeats st eid q := by
  obtain ⟨c, hc, hcid⟩ := List.mem_map.1 hmem
  have hcl := (selectLockedSeats_spec st eid q c hc).1
  have : u = c := ticket_id_inj h2 hu hcl hcid.symm
  rw [this]
  exact hc

/-- Characterization of a successful bookTicketsWithLock run. -/
lemma bookTicketsWithLock_ok {st : DBState} {req : BookingRequest} {now ttl : Int}
    {st' : DBState} {b : Booking}
    (h : bookTicketsWithLock st req now ttl = .ok (st', b)) :
    ∃ ev, st.events.find? (fun e => e.id == req.eventId) = some ev ∧
      ¬ now > ev.startTime ∧
      ((selectLockedSeats st req.eventId req.quantity).map Ticket.id).length =
        req.quantity ∧
      b = { id := st.nextBookingId
            userId := req.userId
            eventId := req.eventId
            ticketIds := (selectLockedSeats st req.eventId req.quantity).map Ticket.id
            quantity := req.quantity
            totalAmount := ev.price * (req.quantity : Rat)
            status := .pending
            bookingRef := "BK" ++ String.mk (natToDigits now.toNat)
            expiresAt := now + ttl } ∧
      st' = { st with
        tickets := st.tickets.map
          (reserveRow ((selectLockedSeats st req.eventId req.quantity).map Ticket.id) now)
        events := st.events.map (decrementEventRow req.eventId req.quantity)
        bookings := st.bookings ++ [b]
        nextBookingId := st.nextBookingId + 1 } := by
  unfold bookTicketsWithLock at h
  cases hfind : st.events.find? (fun e => e.id == req.eventId) with
  | none =>
    rw [hfind] at h
    cases h
  | some ev =>
    simp only [hfind] at h
    by_cases htime : now > ev.startTime
    · rw [if_pos htime] at h
      cases h
    · rw [if_neg htime] at h
      by_cases hsuff : ((selectLockedSeats st req.eventId req.quantity).map
          Ticket.id).length < req.quantity
      · rw [if_pos hsuff] at h
        cases h
      · rw [if_neg hsuff] at h
        have hle : ((selectLockedSeats st req.eventId req.quantity).map
            Ticket.id).length ≤ req.quantity := by
          rw [List.length_map]
          unfold selectLockedSeats
          rw [List.length_take]
          exact min_le_left _ _
        have hlen : ((selectLockedSeats st req.eventId req.quantity).map
            Ticket.id).length = req.quantity := by omega
        injection h with h'
        injection h' with hst hb
        exact ⟨ev, rfl, htime, hlen, hb.symm, by rw [← hst, ← hb]⟩

/-- A successful booking preserves the invariant: the claimed held seats
become reserved while the event counter drops by the quantity, and the
new pending booking is coherent and disjoint from every active booking. -/
lemma inv_book_success (st : DBState) (req : BookingRequest) (now ttl : Int)
    (ev : Event)
    (hlen : ((selectLockedSeats st req.eventId req.quantity).map Ticket.id).length =
      req.quantity)
    (h : Inv st) :
    Inv { st with
      tickets := st.tickets.map
        (reserveRow ((selectLockedSeats st req.eventId req.quantity).map Ticket.id) now)
      events := st.events.map (decrementEventRow req.eventId req.quantity)
      bookings := st.bookings ++
        [{ id := st.nextBookingId
           userId := req.userId
           eventId := req.eventId
           ticketIds := (selectLockedSeats st req.eventId req.quantity).map Ticket.id
           quantity := req.quantity
           totalAmount := ev.price * (req.quantity : Rat)
           status := .pending
           bookingRef := "BK" ++ String.mk (natToDigits now.toNat)
           expiresAt := now + ttl }]
      nextBookingId := st.nextBookingId + 1 } := by
  obtain ⟨h1, h2, h3, h4, h5, h6, h7, h8, h9, h10⟩ := h
  set claimed := selectLockedSeats st req.eventId req.quantity with hclaimed
  set ids := claimed.map Ticket.id with hids
  have hspec := selectLockedSeats_spec st req.eventId req.quantity
  have hnodupids : ids.Nodup := selectLockedSeats_nodup_ids st req.eventId req.quantity h2
  have hexists : ∀ i ∈ ids, ∃ t ∈ st.tickets, t.id = i := by
    intro i hi
    obtain ⟨c, hc, rfl⟩ := List.mem_map.1 hi
    exact ⟨c, (hspec c hc).1, rfl⟩
  have hrowfact : ∀ u ∈ st.tickets, u.id ∈ ids →
      u.eventId = req.eventId ∧ u.status = .locked := by
    intro u hu hmem
    have hcl := mem_claimed_of_id st req.eventId req.quantity h2 hu hmem
    exact ⟨(hspec u hcl).2.1, (hspec u hcl).2.2⟩
  have hflipcount : st.tickets.countP (fun u => ids.contains u.id) = req.quantity := by
    rw [countP_contains_ids st.tickets ids h2 hnodupids hexists]
    exact hlen
  refine ⟨?_, ?_, ?_, ?_, ?_, ?_, ?_, ?_, ?_, ?_⟩
  · -- counter equality
    intro e he
    dsimp only at he ⊢
    obtain ⟨e', he', rfl⟩ := List.mem_map.1 he
    have hbase := h1 e' he'
    rw [availLockedCount_eq_countP] at hbase ⊢
    dsimp only
    rw [List.countP_map]
    by_cases hev : (e'.id == req.eventId) = true
    · have hev' : e'.id = req.eventId := by simpa using hev
      have hcnt := countP_add_flip st.tickets (evCounts e'.id)
          (fun u => evCounts e'.id (reserveRow ids now u))
          (fun u => ids.contains u.id) ?_
      · unfold decrementEventRow
        rw [if_pos hev]
        dsimp only
        rw [Function.comp_def]
        rw [hflipcount] at hcnt
        rw [hbase]
        omega
      · intro u hu
        dsimp only
        constructor
        · intro hflipu
          have hmem : u.id ∈ ids := by simpa using hflipu
          obtain ⟨hue, hus⟩ := hrowfact u hu hmem
          constructor
          · unfold evCounts countsAsAvailable
            rw [hus, hue, hev']
            simp
          · rw [reserveRow_of_mem _ _ _ hmem]
            unfold evCounts countsAsAvailable
            dsimp only
            simp
        · intro hflipu
          rw [reserveRow_fix_of_not_mem _ _ _ (by simpa using hflipu)]
    · unfold decrementEventRow
      rw [if_neg hev]
      rw [hbase]
      congr 1
      refine List.countP_congr fun u hu => ?_
      simp only [Function.comp_apply]
      by_cases hmem : u.id ∈ ids
      · obtain ⟨hue, hus⟩ := hrowfact u hu hmem
        rw [reserveRow_of_mem _ _ _ hmem]
        unfold evCounts
        dsimp only
        rw [hue]
        have : (req.eventId == e'.id) = false := by
          rw [beq_eq_false_iff_ne]
          intro hx
          rw [beq_iff_eq] at hev
          exact hev hx.symm
        rw [this]
        simp
      · rw [reserveRow_fix_of_not_mem _ _ _ hmem]
  · exact inv_tickets_nodup_map st _ (reserveRow_id ids now) h2
  · exact inv_seats_nodup_map st _ (reserveRow_pair ids now) h3
  · dsimp only
    rw [List.map_append]
    refine List.Nodup.append h4 (List.nodup_singleton _) ?_
    intro a ha hb
    simp only [List.map_cons, List.map_nil, List.mem_singleton] at hb
    obtain ⟨b', hb', rfl⟩ := List.mem_map.1 ha
    have := h5 b' hb'
    omega
  · intro b hb
    rw [List.mem_append] at hb
    cases hb with
    | inl hb => exact Nat.lt_succ_of_lt (h5 b hb)
    | inr hb =>
      rw [List.mem_singleton] at hb
      rw [hb]
      exact Nat.lt_succ_self _
  · intro b hb
    rw [List.mem_append] at hb
    cases hb with
    | inl hb => exact h6 b hb
    | inr hb =>
      rw [List.mem_singleton] at hb
      rw [hb]
      intro hx
      cases hx
  · intro b hb
    rw [List.mem_append] at hb
    cases hb with
    | inl hb => exact h7 b hb
    | inr hb =>
      rw [List.mem_singleton] at hb
      rw [hb]
      exact ⟨hnodupids, hlen.symm⟩
  · -- pending coherence, including the new booking
    intro b hb hst
    rw [List.mem_append] at hb
    cases hb with
    | inl hb =>
      refine bookingRefsOk_map st b .reserved _ (h8 b hb hst) fun t ht hts hmem => ?_
      refine reserveRow_fix_of_not_mem ids now t fun hin => ?_
      have := (hrowfact t ht hin).2
      rw [hts] at this
      cases this
    | inr hb =>
      rw [List.mem_singleton] at hb
      subst hb
      intro i hi
      obtain ⟨c, hc, rfl⟩ := List.mem_map.1 hi
      refine ⟨reserveRow ids now c, List.mem_map_of_mem _ ((hspec c hc).1), ?_⟩
      rw [reserveRow_of_mem _ _ _ (List.mem_map_of_mem Ticket.id hc)]
      exact ⟨rfl, (hspec c hc).2.1, rfl⟩
  · -- confirmed coherence: old bookings only
    intro b hb hst
    rw [List.mem_append] at hb
    cases hb with
    | inl hb =>
      refine bookingRefsOk_map st b .sold _ (h9 b hb hst) fun t ht hts hmem => ?_
      refine reserveRow_fix_of_not_mem ids now t fun hin => ?_
      have := (hrowfact t ht hin).2
      rw [hts] at this
      cases this
    | inr hb =>
      rw [List.mem_singleton] at hb
      subst hb
      dsimp only at hst
      cases hst
  · -- pairwise disjointness with the appended booking
    dsimp only
    rw [List.pairwise_append]
    refine ⟨h10, List.pairwise_singleton _ _, ?_⟩
    intro a ha b' hb' hca _ i hia hib
    rw [List.mem_singleton] at hb'
    subst hb'
    dsimp only at hib
    obtain ⟨c, hc, rfl⟩ := List.mem_map.1 hib
    -- the id belongs to a non-cancelled old booking, so its row is
    -- reserved or sold; but the claimed row with the same id is held
    have hsts : ∃ t ∈ st.tickets, t.id = c.id ∧
        (t.status = TicketStatus.reserved ∨ t.status = TicketStatus.sold) := by
      cases hax : a.status with
      | pending =>
        obtain ⟨t, ht, hid, _, hts⟩ := h8 a ha hax c.id hia
        exact ⟨t, ht, hid, Or.inl hts⟩
      | confirmed =>
        obtain ⟨t, ht, hid, _, hts⟩ := h9 a ha hax c.id hia
        exact ⟨t, ht, hid, Or.inr hts⟩
      | cancelled => exact absurd hax hca
      | expired => exact absurd hax (h6 a ha)
    obtain ⟨t, ht, hid, hts⟩ := hsts
    have : t = c := ticket_id_inj h2 ht ((hspec c hc).1) hid
    subst this
    have := (hspec t hc).2.2
    cases hts with
    | inl hx => rw [hx] at this; cases this
    | inr hx => rw [hx] at this; cases this

/-- The committed state of a BookTickets call preserves the invariant. -/
lemma inv_bookTx (st : DBState) (req : BookingRequest) (now ttl : Int)
    (h : Inv st) : Inv (bookTickets st req now ttl).1 := by
  unfold bookTickets
  cases hres : bookTicketsWithLock st req now ttl with
  | error e => exact h
  | ok p =>
    obtain ⟨ev, hfind, htime, hlen, hb, hst⟩ := bookTicketsWithLock_ok
      (show bookTicketsWithLock st req now ttl = .ok (p.1, p.2) by rw [hres])
    dsimp only
    rw [hst, hb]
    exact inv_book_success st req now ttl ev hlen
      ⟨h.1, h.2.1, h.2.2.1, h.2.2.2.1, h.2.2.2.2.1, h.2.2.2.2.2.1, h.2.2.2.2.2.2.1,
        h.2.2.2.2.2.2.2.1, h.2.2.2.2.2.2.2.2.1, h.2.2.2.2.2.2.2.2.2⟩

/-! ### Characterizations of the remaining operations -/

/-- A successful LockSeat commits exactly the seat-targeted UPDATE. -/
lemma lockSeat_ok {st : DBState} {eid : Nat} {sn : String} {now : Int} {st' : DBState}
    (h : lockSeat st eid sn now = .ok st') :
    st' = { st with tickets := st.tickets.map (lockRow eid sn now) } ∧
      ∃ t0, st.tickets.find? (seatMatch eid sn) = some t0 ∧ t0.status = .available := by
  unfold lockSeat at h
  cases hfind : st.tickets.find? (seatMatch eid sn) with
  | none =>
    rw [hfind] at h
    cases h
  | some t0 =>
    simp only [hfind] at h
    by_cases hav : (t0.status != TicketStatus.available) = true
    · rw [if_pos hav] at h
      cases h
    · rw [if_neg (by simpa using hav)] at h
      by_cases hz : (st.tickets.countP (seatMatch eid sn) == 0) = true
      · rw [if_pos hz] at h
        cases h
      · rw [if_neg (by simpa using hz)] at h
        injection h with h'
        exact ⟨h'.symm, t0, rfl, by simpa using hav⟩

/-- A successful CancelBooking commits the release, the counter increment
and the status flip for the booking the row lookup returned. -/
lemma cancelBooking_ok {st : DBState} {bid : Nat} {now : Int} {st' : DBState}
    (h : cancelBooking st bid now = (st', none)) :
    ∃ b0, st.bookings.find? (fun b => b.id == bid) = some b0 ∧
      b0.status ≠ .cancelled ∧
      st' = { st with
        tickets := st.tickets.map (releaseRow b0.ticketIds now)
        events := st.events.map (incrementEventRow b0.eventId b0.quantity)
        bookings := st.bookings.map (cancelBookingRow bid) } := by
  unfold cancelBooking at h
  cases hfind : st.bookings.find? (fun b => b.id == bid) with
  | none =>
    rw [hfind] at h
    cases h
  | some b0 =>
    simp only [hfind] at h
    by_cases hc : (b0.status == BookingStatus.cancelled) = true
    · rw [if_pos hc] at h
      cases h
    · rw [if_neg hc] at h
      injection h with h1 h2
      exact ⟨b0, rfl, by simpa using hc, h1.symm⟩

/-- CancelBooking errs exactly on a missing row or a cancelled booking. -/
lemma cancelBooking_err_iff (st : DBState) (bid : Nat) (now : Int) (b0 : Booking)
    (hfind : st.bookings.find? (fun b => b.id == bid) = some b0) :
    (cancelBooking st bid now).2 = none ↔ b0.status ≠ .cancelled := by
  unfold cancelBooking
  simp only [hfind]
  by_cases hc : (b0.status == BookingStatus.cancelled) = true
  · simp only [hc, if_true]
    constructor
    · intro hx
      cases hx
    · intro hx
      exact absurd (by simpa using hc) hx
  · simp only [hc, if_false]
    constructor
    · intro _
      simpa using hc
    · intro _
      rfl

/-- Characterization of ConfirmBooking on a booking the lookup returns. -/
lemma confirmBooking_cases (st : DBState) (bid : Nat) (now : Int) (b0 : Booking)
    (hfind : st.bookings.find? (fun b => b.id == bid) = some b0) :
    (b0.status ≠ .pending →
      confirmBooking st bid now = (st, some "booking is not in pending status")) ∧
    (b0.status = .pending → now > b0.expiresAt →
      confirmBooking st bid now = (st, some "booking has expired")) ∧
    (b0.status = .pending → ¬ now > b0.expiresAt →
      st.tickets.countP (fun t => b0.ticketIds.contains t.id &&
        t.status == TicketStatus.reserved) ≠ b0.ticketIds.length →
      confirmBooking st bid now = (st, some "some tickets could not be confirmed")) ∧
    (b0.status = .pending → ¬ now > b0.expiresAt →
      st.tickets.countP (fun t => b0.ticketIds.contains t.id &&
        t.status == TicketStatus.reserved) = b0.ticketIds.length →
      confirmBooking st bid now =
        ({ st with
            tickets := st.tickets.map (sellRow b0.ticketIds now)
            bookings := st.bookings.map (confirmBookingRow bid) }, none)) := by
  refine ⟨?_, ?_, ?_, ?_⟩
  · intro hst
    unfold confirmBooking
    simp only [hfind]
    rw [if_pos (by simpa using hst)]
  · intro hst hexp
    unfold confirmBooking
    simp only [hfind]
    rw [if_neg (by simpa using hst), if_pos hexp]
  · intro hst hexp hcnt
    unfold confirmBooking
    simp only [hfind]
    rw [if_neg (by simpa using hst), if_neg hexp]
    rw [if_pos (by simpa using hcnt)]
  · intro hst hexp hcnt
    unfold confirmBooking
    simp only [hfind]
    rw [if_neg (by simpa using hst), if_neg hexp]
    rw [if_neg (by simpa using hcnt)]

/-! ### Example states for the closed instances -/

def exTicket : Ticket :=
  { id := 1, eventId := 1, seatNo := "S001", status := .available, updatedAt := 0 }

def exEvent : Event :=
  { id := 1, name := "Show", startTime := 1000, totalTickets := 1,
    availableTickets := 1, price := 100 }

/-- A one-seat event with its seat still available. -/
def exState : DBState :=
  { events := [exEvent], tickets := [exTicket], bookings := [], nextBookingId := 1 }

def exLockedTicket : Ticket :=
  { id := 1, eventId := 1, seatNo := "S001", status := .locked, updatedAt := 5 }

/-- The same state after the seat hold. -/
def exStateLocked : DBState :=
  { events := [exEvent], tickets := [exLockedTicket], bookings := [], nextBookingId := 1 }

/-! ### Claims -/

lemma map_id_of_fix {α : Type} (l : List α) (f : α → α) (h : ∀ a ∈ l, f a = a) :
    l.map f = l := by
  induction l with
  | nil => rfl
  | cons a l ih =>
    rw [List.map_cons, h a (List.mem_cons_self a l),
      ih fun x hx => h x (List.mem_cons_of_mem a hx)]

/-- C1 (amended): at every committed state reachable by the core
mutations, each event's available_tickets column equals the number of
its tickets whose status is available or held ('locked'); every core
mutation — hold, release, stale-hold reclaim, book, confirm, cancel —
preserves this equality together with the structural invariants. (The
spec's version, counting only 'available' tickets, fails at the hold
mutation: see the counterexample.) -/
theorem c1_counter_invariant_preserved (st st' : DBState)
    (h : Inv st) (hs : Step st st') :
    Inv st' ∧ ∀ e ∈ st'.events,
      e.availableTickets = (availLockedCount st' e.id : Int) := by
  have h' : Inv st' := by
    cases hs with
    | lock eid sn now => exact inv_lockTx st eid sn now h
    | unlock eid sn now => exact inv_unlock st eid sn now h
    | cleanup now ttl => exact inv_cleanup st now ttl h
    | book req now ttl => exact inv_bookTx st req now ttl h
    | confirm bid now => exact inv_confirmTx st bid now h
    | cancel bid now => exact inv_cancelTx st bid now h
  exact ⟨h', h'.1⟩

/-- Witness for C1 at a concrete state and a concrete mutation. -/
theorem c1_counter_invariant_preserved_witness :
    Inv exState ∧ ∀ e ∈ (unlockSeat exState 1 "S001" 7).events,
      e.availableTickets = (availLockedCount (unlockSeat exState 1 "S001" 7) e.id : Int) :=
  ⟨by decide,
    (c1_counter_invariant_preserved exState _ (by decide) (Step.unlock 1 "S001" 7)).2⟩

/-- C1 counterexample: the spec's equality (counter = number of
'available' tickets) holds before a hold and fails after it — LockSeat
changes the ticket status without touching the event counter. -/
theorem c1_spec_equality_counterexample :
    Inv exState ∧ specCounterEq exState ∧
    lockSeat exState 1 "S001" 5 = .ok exStateLocked ∧
    ¬ specCounterEq exStateLocked := by decide

lemma unlockRow_fix_of_not_match (eid : Nat) (sn : String) (now : Int) (u : Ticket)
    (h : ¬ seatMatch eid sn u = true) : unlockRow eid sn now u = u := by
  unfold unlockRow
  rw [if_neg]
  rw [Bool.and_eq_true]
  rintro ⟨h', -⟩
  exact h h'

/-- C9: release transitions a held ticket of the seat to available, is a
no-op on a state whose matching tickets are not held, and is idempotent:
a second release commits exactly the state of the first. -/
theorem c9_release_idempotent :
    (∀ (st : DBState) (eid : Nat) (sn : String) (now : Int),
      ∀ t ∈ st.tickets, t.eventId = eid → t.seatNo = sn → t.status = .locked →
        ({ t with status := .available, updatedAt := now } : Ticket) ∈
          (unlockSeat st eid sn now).tickets) ∧
    (∀ (st : DBState) (eid : Nat) (sn : String) (now : Int),
      (∀ t ∈ st.tickets, t.eventId = eid → t.seatNo = sn → t.status ≠ .locked) →
        unlockSeat st eid sn now = st) ∧
    (∀ (st : DBState) (eid : Nat) (sn : String) (now1 now2 : Int),
      unlockSeat (unlockSeat st eid sn now1) eid sn now2 =
        unlockSeat st eid sn now1) := by
  refine ⟨?_, ?_, ?_⟩
  · intro st eid sn now t ht hev hsn hst
    have hrow : unlockRow eid sn now t = { t with status := .available, updatedAt := now } := by
      unfold unlockRow
      rw [if_pos]
      rw [Bool.and_eq_true]
      constructor
      · unfold seatMatch
        rw [Bool.and_eq_true]
        exact ⟨by simpa using hev, by simpa using hsn⟩
      · simpa using hst
    rw [← hrow]
    exact List.mem_map_of_mem _ ht
  · intro st eid sn now h
    unfold unlockSeat
    rw [map_id_of_fix]
    intro t ht
    by_cases hm : seatMatch eid sn t = true
    · obtain ⟨hev, hsn⟩ := seatMatch_spec hm
      exact unlockRow_fix_of_status eid sn now t (h t ht hev hsn)
    · exact unlockRow_fix_of_not_match eid sn now t hm
  · intro st eid sn now1 now2
    have hfix : ∀ b ∈ st.tickets.map (unlockRow eid sn now1),
        unlockRow eid sn now2 b = b := by
      intro b hb
      obtain ⟨a, _, rfl⟩ := List.mem_map.1 hb
      by_cases hm : seatMatch eid sn a = true
      · by_cases hst : a.status = .locked
        · have hrow : unlockRow eid sn now1 a =
              { a with status := .available, updatedAt := now1 } := by
            unfold unlockRow
            rw [if_pos]
            rw [Bool.and_eq_true]
            exact ⟨hm, by simpa using hst⟩
          rw [hrow]
          exact unlockRow_fix_of_status eid sn now2 _ (by intro hx; cases hx)
        · rw [unlockRow_fix_of_status eid sn now1 a hst]
          exact unlockRow_fix_of_status eid sn now2 a hst
      · rw [unlockRow_fix_of_not_match eid sn now1 a hm]
        exact unlockRow_fix_of_not_match eid sn now2 a hm
    show { st with
        tickets :=
          List.map (unlockRow eid sn now2) (st.tickets.map (unlockRow eid sn now1)) } = _
    rw [map_id_of_fix _ _ hfix]
    rfl

/-- Witness for C9's conditional conjuncts at concrete states. -/
theorem c9_release_idempotent_witness :
    ({ id := 1, eventId := 1, seatNo := "S001", status := .available,
       updatedAt := 9 } : Ticket) ∈ (unlockSeat exStateLocked 1 "S001" 9).tickets ∧
    unlockSeat exState 1 "S001" 9 = exState :=
  ⟨c9_release_idempotent.1 exStateLocked 1 "S001" 9 exLockedTicket (by decide)
      (by decide) (by decide) (by decide),
    c9_release_idempotent.2.1 exState 1 "S001" 9 (by decide)⟩

lemma staleLock_iff (now : Int) (ttl : Nat) (t : Ticket) :
    staleLock now ttl t = true ↔
      t.status = .locked ∧ t.updatedAt < now - 60 * (ttl / 60 : Nat) := by
  unfold staleLock
  rw [Bool.and_eq_true]
  constructor
  · rintro ⟨h1, h2⟩
    exact ⟨by simpa using h1, by simpa using h2⟩
  · rintro ⟨h1, h2⟩
    exact ⟨by simpa using h1, by simpa using h2⟩

/-- C8 (amended): the reclaim sweep rewrites exactly the held tickets
whose updated_at is older than the hold lifetime rounded down to whole
minutes (int(SeatLockDuration.Minutes())), setting them back to
available; every other ticket row is unchanged, and the sweep's
affected-row count — the number the Go function logs — is the number of
such tickets. -/
theorem c8_reclaim_stale (st : DBState) (now : Int) (ttl : Nat) :
    (cleanupExpiredLocks st now ttl).1.tickets.length = st.tickets.length ∧
    (∀ (i : Nat) (h1 : i < st.tickets.length)
        (h2 : i < (cleanupExpiredLocks st now ttl).1.tickets.length),
      ((st.tickets.get ⟨i, h1⟩).status = .locked ∧
          (st.tickets.get ⟨i, h1⟩).updatedAt < now - 60 * (ttl / 60 : Nat) →
        (cleanupExpiredLocks st now ttl).1.tickets.get ⟨i, h2⟩ =
          { st.tickets.get ⟨i, h1⟩ with status := .available, updatedAt := now }) ∧
      (¬ ((st.tickets.get ⟨i, h1⟩).status = .locked ∧
          (st.tickets.get ⟨i, h1⟩).updatedAt < now - 60 * (ttl / 60 : Nat)) →
        (cleanupExpiredLocks st now ttl).1.tickets.get ⟨i, h2⟩ =
          st.tickets.get ⟨i, h1⟩)) ∧
    (cleanupExpiredLocks st now ttl).1.events = st.events ∧
    (cleanupExpiredLocks st now ttl).1.bookings = st.bookings ∧
    (cleanupExpiredLocks st now ttl).2 =
      st.tickets.countP (staleLock now ttl) := by
  refine ⟨by simp [cleanupExpiredLocks], ?_, rfl, rfl, rfl⟩
  intro i h1 h2
  have hget : (cleanupExpiredLocks st now ttl).1.tickets.get ⟨i, h2⟩ =
      reclaimRow now ttl (st.tickets.get ⟨i, h1⟩) := by
    show (st.tickets.map (reclaimRow now ttl)).get ⟨i, h2⟩ = _
    rw [List.get_eq_getElem, List.get_eq_getElem, List.getElem_map]
  constructor
  · intro hcond
    rw [hget]
    unfold reclaimRow
    rw [if_pos ((staleLock_iff now ttl _).2 hcond)]
  · intro hcond
    rw [hget]
    unfold reclaimRow
    rw [if_neg]
    intro hx
    exact hcond ((staleLock_iff now ttl _).1 hx)

def c8Ticket : Ticket :=
  { id := 2, eventId := 1, seatNo := "S002", status := .locked, updatedAt := -70 }

/-- A state with a single held seat whose hold is 70 seconds old. -/
def c8State : DBState :=
  { events := [], tickets := [c8Ticket], bookings := [], nextBookingId := 1 }

/-- Witness for C8 at a stale hold with the default whole-minute TTL. -/
theorem c8_reclaim_stale_witness :
    ((c8Ticket.status = TicketStatus.locked ∧
        c8Ticket.updatedAt < (0 : Int) - 60 * ((60 : Nat) / 60 : Nat)) ∧
      (cleanupExpiredLocks c8State 0 60).1.tickets.get ⟨0, by decide⟩ =
        { c8Ticket with status := .available, updatedAt := 0 }) ∧
    (cleanupExpiredLocks c8State 0 60).2 = c8State.tickets.countP (staleLock 0 60) :=
  ⟨⟨by decide, ((c8_reclaim_stale c8State 0 60).2.1 0 (by decide) (by decide)).1
      (by decide)⟩,
    (c8_reclaim_stale c8State 0 60).2.2.2.2⟩

/-- C8 counterexample to the claim as stated: with hold_ttl = 90 seconds
the sweep reclaims a 70-second-old hold, although it is not older than
hold_ttl — the Go code truncates the TTL to whole minutes before
building the SQL interval. -/
theorem c8_truncation_counterexample :
    ¬ (c8Ticket.updatedAt < (0 : Int) - (90 : Nat)) ∧
    (cleanupExpiredLocks c8State 0 90).1.tickets =
      [{ c8Ticket with status := .available, updatedAt := 0 }] ∧
    (cleanupExpiredLocks c8State 0 90).2 = 1 := by decide

/-- C6 (amended): booking on an existing event fails with the
EventStarted error whenever now is strictly after start_time
(time.Now().After(StartTime)), rolling back the transaction; at
now = start_time exactly the check passes, contrary to the claim's
`now >= start_time`. -/
theorem c6_event_started (st : DBState) (req : BookingRequest) (now ttl : Int)
    (ev : Event) (hfind : st.events.find? (fun e => e.id == req.eventId) = some ev)
    (h : now > ev.startTime) :
    bookTickets st req now ttl = (st, .error "event has already started") := by
  unfold bookTickets
  have hwl : bookTicketsWithLock st req now ttl = .error "event has already started" := by
    unfold bookTicketsWithLock
    simp only [hfind]
    rw [if_pos h]
  rw [hwl]

/-- Witness for C6: the end-to-end scenario's book attempt one second
after the start time fails with EventStarted. -/
theorem c6_event_started_witness :
    bookTickets exStateLocked { userId := 1, eventId := 1, quantity := 1 } 1001 900 =
      (exStateLocked, .error "event has already started") :=
  c6_event_started exStateLocked { userId := 1, eventId := 1, quantity := 1 } 1001 900
    exEvent (by decide) (by decide)

/-- The booking committed at exactly the event start time. -/
def c6Booking : Booking :=
  { id := 1, userId := 1, eventId := 1, ticketIds := [1], quantity := 1,
    totalAmount := exEvent.price * ((1 : Nat) : Rat), status := .pending,
    bookingRef := "BK1000", expiresAt := 1900 }

/-- C6 counterexample to the claim as stated: at now = start_time
(now >= start_time per the claim) the code books successfully, because
time.Now().After(StartTime) is strict. -/
theorem c6_boundary_counterexample :
    (1000 : Int) ≥ exEvent.startTime ∧
    (bookTickets exStateLocked { userId := 1, eventId := 1, quantity := 1 } 1000 900).2 =
      .ok c6Booking :=
  ⟨by decide, rfl⟩

/-- C3: booking three seats of an existing, future event holding zero
held seats aborts the transaction with the insufficiency error — the
committed state is unchanged and the message carries both the found
count (0) and the requested quantity (3) — but the HTTP handler maps
this error to status 500, not the specified 400: its check looks for
the substring "insufficient tickets" while the repository's message
says "insufficient locked seats". -/
theorem c3_insufficient_held_maps_to_500 :
    bookTickets exState { userId := 1, eventId := 1, quantity := 3 } 10 900 =
      (exState, .error (insufficientMsg 0 3)) ∧
    insufficientMsg 0 3 =
      "insufficient locked seats for booking. Found 0 locked seats, need 3. Please select seats first" ∧
    containsStr (insufficientMsg 0 3) "0" = true ∧
    containsStr (insufficientMsg 0 3) "3" = true ∧
    containsStr (insufficientMsg 0 3) "insufficient tickets" = false ∧
    bookErrorStatusCode (insufficientMsg 0 3) = 500 := by decide

/-- With distinct row ids and a duplicate-free id list, at most one row
per id is counted. -/
lemma countP_contains_le (l : List Ticket) (ids : List Nat)
    (hl : (l.map Ticket.id).Nodup) :
    l.countP (fun t => ids.contains t.id) ≤ ids.length := by
  rw [List.countP_eq_length_filter]
  have hnd : ((List.filter (fun t => ids.contains t.id) l).map Ticket.id).Nodup :=
    List.Nodup.sublist ((List.filter_sublist l).map Ticket.id) hl
  have hsub : (List.filter (fun t => ids.contains t.id) l).map Ticket.id ⊆ ids := by
    intro i hi
    obtain ⟨t, ht, rfl⟩ := List.mem_map.1 hi
    have := (List.mem_filter.1 ht).2
    simpa using this
  have := (List.subperm_of_subset hnd hsub).length_le
  simpa using this

/-- If a stronger predicate already counts as many rows as a weaker one,
every row satisfying the weaker predicate satisfies the stronger. -/
lemma countP_pointwise_of_eq {α : Type} (l : List α) (p q : α → Bool)
    (himp : ∀ x ∈ l, p x = true → q x = true)
    (heq : l.countP p = l.countP q) :
    ∀ x ∈ l, q x = true → p x = true := by
  induction l with
  | nil => intro x hx; cases hx
  | cons a l ih =>
    have himpa := himp a (List.mem_cons_self a l)
    have himpl := fun x hx => himp x (List.mem_cons_of_mem a hx)
    have hmono := List.countP_mono_left himpl
    intro x hx hqx
    rw [List.countP_cons, List.countP_cons] at heq
    rcases List.mem_cons.1 hx with rfl | hxl
    · by_cases hpa : p x = true
      · exact hpa
      · exfalso
        rw [if_neg hpa, if_pos hqx] at heq
        omega
    · refine ih himpl ?_ x hxl hqx
      by_cases hpa : p a = true
      · rw [if_pos hpa, if_pos (himpa hpa)] at heq
        omega
      · by_cases hqa : q a = true
        · rw [if_neg hpa, if_pos hqa] at heq
          omega
        · rw [if_neg hpa, if_neg hqa] at heq
          omega

/-- C4: confirm rejects a booking that is not pending or whose expiry has
passed (strictly); otherwise it sells exactly the booking's reserved
rows, fails with the inconsistency error when the affected-row count
differs from len(ticket_ids), and on success (given the schema's unique
row ids and the booking's duplicate-free id list) every ticket in
ticket_ids was reserved and is now sold, other rows are untouched, and
the booking row becomes confirmed. -/
theorem c4_confirm_booking (st : DBState) (bid : Nat) (now : Int) (b0 : Booking)
    (hfind : st.bookings.find? (fun b => b.id == bid) = some b0) :
    (b0.status ≠ .pending →
      confirmBooking st bid now = (st, some "booking is not in pending status")) ∧
    (b0.status = .pending → now > b0.expiresAt →
      confirmBooking st bid now = (st, some "booking has expired")) ∧
    (b0.status = .pending → ¬ now > b0.expiresAt →
      st.tickets.countP (fun t => b0.ticketIds.contains t.id &&
          t.status == TicketStatus.reserved) ≠ b0.ticketIds.length →
      confirmBooking st bid now = (st, some "some tickets could not be confirmed")) ∧
    (b0.status = .pending → ¬ now > b0.expiresAt →
      st.tickets.countP (fun t => b0.ticketIds.contains t.id &&
          t.status == TicketStatus.reserved) = b0.ticketIds.length →
      (confirmBooking st bid now).2 = none ∧
      ((st.tickets.map Ticket.id).Nodup → b0.ticketIds.Nodup →
        ∀ t ∈ st.tickets, t.id ∈ b0.ticketIds →
          t.status = .reserved ∧
          ({ t with status := .sold, updatedAt := now } : Ticket) ∈
            (confirmBooking st bid now).1.tickets) ∧
      (∀ t ∈ st.tickets, t.id ∉ b0.ticketIds →
        t ∈ (confirmBooking st bid now).1.tickets) ∧
      (∀ b ∈ (confirmBooking st bid now).1.bookings, b.id = bid →
        b.status = .confirmed)) := by
  obtain ⟨hc1, hc2, hc3, hc4⟩ := confirmBooking_cases st bid now b0 hfind
  refine ⟨hc1, hc2, hc3, ?_⟩
  intro hpend hexp hcnt
  have hres := hc4 hpend hexp hcnt
  rw [hres]
  refine ⟨rfl, ?_, ?_, ?_⟩
  · intro hndT hndI t ht hmem
    have hstrong : ∀ x ∈ st.tickets,
        (b0.ticketIds.contains x.id && x.status == TicketStatus.reserved) = true →
        (b0.ticketIds.contains x.id) = true := by
      intro x _ hx
      rw [Bool.and_eq_true] at hx
      exact hx.1
    have hle := countP_contains_le st.tickets b0.ticketIds hndT
    have hmono := List.countP_mono_left hstrong
    have heq : st.tickets.countP (fun t => b0.ticketIds.contains t.id &&
        t.status == TicketStatus.reserved) =
        st.tickets.countP (fun t => b0.ticketIds.contains t.id) := by
      omega
    have hres' := countP_pointwise_of_eq st.tickets _ _ hstrong heq t ht
      (by simpa using hmem)
    rw [Bool.and_eq_true] at hres'
    have hstatus : t.status = .reserved := by simpa using hres'.2
    refine ⟨hstatus, ?_⟩
    have hrow : sellRow b0.ticketIds now t =
        { t with status := .sold, updatedAt := now } := by
      unfold sellRow
      rw [if_pos]
      rw [Bool.and_eq_true]
      exact ⟨by simpa using hmem, by simpa using hstatus⟩
    rw [← hrow]
    exact List.mem_map_of_mem _ ht
  · intro t ht hmem
    have hrow := sellRow_fix_of_not_mem b0.ticketIds now t hmem
    rw [← hrow]
    exact List.mem_map_of_mem _ ht
  · intro b hb hbid
    obtain ⟨b', _, rfl⟩ := List.mem_map.1 hb
    unfold confirmBookingRow at hbid ⊢
    split
    · rfl
    · rename_i hne
      rw [if_neg hne] at hbid
      exact absurd (by simpa using hbid) (by simpa using hne)

def c4PendingBooking : Booking :=
  { id := 1, userId := 7, eventId := 1, ticketIds := [1], quantity := 1,
    totalAmount := 100, status := .pending, bookingRef := "BK10", expiresAt := 910 }

/-- The committed state after booking the held seat of exState. -/
def c4State : DBState :=
  { events := [{ exEvent with availableTickets := 0 }],
    tickets := [{ id := 1, eventId := 1, seatNo := "S001", status := .reserved,
                  updatedAt := 10 }],
    bookings := [c4PendingBooking], nextBookingId := 2 }

/-- Witness for C4: a pending unexpired booking confirms; its reserved
ticket becomes sold and the booking row flips to confirmed. -/
theorem c4_confirm_booking_witness :
    (confirmBooking c4State 1 20).2 = none ∧
    ({ id := 1, eventId := 1, seatNo := "S001", status := TicketStatus.sold,
       updatedAt := 20 } : Ticket) ∈ (confirmBooking c4State 1 20).1.tickets ∧
    (∀ b ∈ (confirmBooking c4State 1 20).1.bookings, b.id = 1 →
      b.status = .confirmed) := by
  have h := c4_confirm_booking c4State 1 20 c4PendingBooking (by decide)
  have hs := h.2.2.2 (by decide) (by decide) (by decide)
  refine ⟨hs.1, ?_, hs.2.2.2⟩
  have := (hs.2.1 (by decide) (by decide)
    { id := 1, eventId := 1, seatNo := "S001", status := .reserved, updatedAt := 10 }
    (by decide) (by decide)).2
  exact this

/-- C2: a successful booking claims exactly the held tickets of the event
with the lowest seat_no values at the start of the transaction (in
ascending seat_no order, limited to the requested quantity), and the
returned booking is pending with quantity = len(ticket_ids), total
amount price * quantity, and expiry now + booking TTL. -/
theorem c2_exact_match_booking (st : DBState) (req : BookingRequest) (now ttl : Int)
    (st' : DBState) (b : Booking) (ev : Event)
    (hfind : st.events.find? (fun e => e.id == req.eventId) = some ev)
    (hok : bookTicketsWithLock st req now ttl = .ok (st', b)) :
    b.ticketIds = (selectLockedSeats st req.eventId req.quantity).map Ticket.id ∧
    (∀ id ∈ b.ticketIds, ∃ t ∈ st.tickets,
      t.id = id ∧ t.eventId = req.eventId ∧ t.status = .locked) ∧
    b.ticketIds.length = req.quantity ∧
    (∀ c ∈ selectLockedSeats st req.eventId req.quantity,
      ∀ u ∈ st.tickets, u.eventId = req.eventId → u.status = .locked →
        u.id ∉ b.ticketIds → c.seatNo ≤ u.seatNo) ∧
    b.status = .pending ∧
    b.quantity = req.quantity ∧
    b.quantity = b.ticketIds.length ∧
    b.totalAmount = ev.price * (req.quantity : Rat) ∧
    b.expiresAt = now + ttl := by
  obtain ⟨ev', hfind', htime, hlen, hb, hst⟩ := bookTicketsWithLock_ok hok
  have hev : ev = ev' := by
    rw [hfind] at hfind'
    injection hfind'
  subst hev
  subst hb
  have hlow : ∀ c ∈ selectLockedSeats st req.eventId req.quantity,
      ∀ u ∈ st.tickets, u.eventId = req.eventId → u.status = .locked →
        u.id ∉ (selectLockedSeats st req.eventId req.quantity).map Ticket.id →
        c.seatNo ≤ u.seatNo := by
    intro c hc u hu huev hust hunotin
    have huL : u ∈ st.tickets.filter
        (fun t => t.eventId == req.eventId && t.status == TicketStatus.locked) := by
      refine List.mem_filter.2 ⟨hu, ?_⟩
      rw [Bool.and_eq_true]
      exact ⟨by simpa using huev, by simpa using hust⟩
    have huS : u ∈ (st.tickets.filter
        (fun t => t.eventId == req.eventId && t.status == TicketStatus.locked)).insertionSort
          seatLe := (List.mem_insertionSort seatLe).2 huL
    set S := (st.tickets.filter
      (fun t => t.eventId == req.eventId && t.status == TicketStatus.locked)).insertionSort
        seatLe with hS
    have hsplit := List.take_append_drop req.quantity S
    have hsort : List.Pairwise seatLe S := List.sorted_insertionSort seatLe _
    rw [← hsplit] at hsort
    have hrel := (List.pairwise_append.1 hsort).2.2
    have humem : u ∈ S.take req.quantity ∨ u ∈ S.drop req.quantity := by
      rw [← List.mem_append, hsplit]
      exact huS
    cases humem with
    | inl hx =>
      exact absurd (List.mem_map_of_mem Ticket.id hx) hunotin
    | inr hx =>
      exact hrel c hc u hx
  refine ⟨rfl, ?_, hlen, hlow, rfl, rfl, hlen.symm, rfl, rfl⟩
  intro id hid
  obtain ⟨c, hc, rfl⟩ := List.mem_map.1 hid
  obtain ⟨hcl, hcev, hcst⟩ := selectLockedSeats_spec st req.eventId req.quantity c hc
  exact ⟨c, hcl, rfl, hcev, hcst⟩

def c2Booking : Booking :=
  { id := 1, userId := 7, eventId := 1, ticketIds := [1], quantity := 1,
    totalAmount := exEvent.price * ((1 : Nat) : Rat), status := .pending,
    bookingRef := "BK10", expiresAt := 910 }

/-- The state committed by booking the single held seat of exStateLocked. -/
def c2State : DBState :=
  { events := [{ exEvent with availableTickets := 0 }],
    tickets := [{ id := 1, eventId := 1, seatNo := "S001", status := .reserved,
                  updatedAt := 10 }],
    bookings := [c2Booking], nextBookingId := 2 }

/-- Witness for C2 on the one-held-seat state. -/
theorem c2_exact_match_booking_witness :
    c2Booking.ticketIds = (selectLockedSeats exStateLocked 1 1).map Ticket.id ∧
    c2Booking.status = BookingStatus.pending ∧
    c2Booking.quantity = c2Booking.ticketIds.length ∧
    c2Booking.totalAmount = exEvent.price * ((1 : Nat) : Rat) ∧
    c2Booking.expiresAt = 10 + 900 := by
  have h := c2_exact_match_booking exStateLocked
    { userId := 7, eventId := 1, quantity := 1 } 10 900 c2State c2Booking exEvent
    (by decide) rfl
  exact ⟨h.1, h.2.2.2.2.1, h.2.2.2.2.2.2.1, h.2.2.2.2.2.2.2.1, h.2.2.2.2.2.2.2.2⟩

/-- C5: hold, book (claiming the held seat), then cancel returns every
ticket of the booking to available and restores each event's
available_tickets to its value before the sequence; and cancel of an
existing booking is rejected exactly when its status is already
cancelled.  The freshness hypothesis (booking ids below the id counter)
is what SERIAL keys guarantee. -/
theorem c5_cancel_round_trip :
    (∀ (st st1 st2 st3 : DBState) (b : Booking) (req : BookingRequest)
        (eid : Nat) (sn : String) (now1 now2 now3 ttl : Int),
      (∀ b' ∈ st.bookings, b'.id < st.nextBookingId) →
      lockSeat st eid sn now1 = .ok st1 →
      bookTickets st1 req now2 ttl = (st2, .ok b) →
      cancelBooking st2 b.id now3 = (st3, none) →
      (∀ t ∈ st3.tickets, t.id ∈ b.ticketIds → t.status = .available) ∧
      st3.events.map (fun e => (e.id, e.availableTickets)) =
        st.events.map (fun e => (e.id, e.availableTickets))) ∧
    (∀ (st : DBState) (bid : Nat) (now : Int) (b0 : Booking),
      st.bookings.find? (fun x => x.id == bid) = some b0 →
      ((cancelBooking st bid now).2 = none ↔ b0.status ≠ .cancelled)) := by
  constructor
  · intro st st1 st2 st3 b req eid sn now1 now2 now3 ttl hfresh hlock hbook hcancel
    obtain ⟨hst1, -⟩ := lockSeat_ok hlock
    have hwl : bookTicketsWithLock st1 req now2 ttl = .ok (st2, b) := by
      unfold bookTickets at hbook
      cases hres : bookTicketsWithLock st1 req now2 ttl with
      | error e =>
        rw [hres] at hbook
        have h2 := congrArg Prod.snd hbook
        cases h2
      | ok p =>
        rw [hres] at hbook
        have h1 := congrArg Prod.fst hbook
        have h2 := congrArg Prod.snd hbook
        dsimp only at h1 h2
        injection h2 with h2'
        rw [show p = (st2, b) from Prod.ext h1 h2']
    obtain ⟨ev, hfind, htime, hlen, hbform, hst2⟩ := bookTicketsWithLock_ok hwl
    have hbid : b.id = st.nextBookingId := by
      rw [hbform, hst1]
    have hbev : b.eventId = req.eventId := by rw [hbform]
    have hbq : b.quantity = req.quantity := by rw [hbform]
    have hbooks1 : st1.bookings = st.bookings := by rw [hst1]
    have hfind2 : st2.bookings.find? (fun x => x.id == b.id) = some b := by
      rw [hst2]
      dsimp only
      rw [List.find?_append]
      have hnone : st1.bookings.find? (fun x => x.id == b.id) = none := by
        rw [List.find?_eq_none]
        intro x hx
        rw [hbooks1] at hx
        have := hfresh x hx
        simp only [beq_iff_eq, hbid]
        omega
      rw [hnone]
      simp
    obtain ⟨b0, hfind0, hnc0, hst3⟩ := cancelBooking_ok hcancel
    have hb0 : b0 = b := by
      rw [hfind2] at hfind0
      injection hfind0 with h
      exact h.symm
    subst hb0
    constructor
    · intro t ht hmem
      rw [hst3] at ht
      dsimp only at ht
      obtain ⟨u, hu, rfl⟩ := List.mem_map.1 ht
      have humem : u.id ∈ b0.ticketIds := by
        rw [← releaseRow_id b0.ticketIds now3 u]
        exact hmem
      rw [releaseRow_of_mem _ _ _ humem]
    · have hE2 : st2.events = st.events.map (decrementEventRow req.eventId req.quantity) := by
        rw [hst2, hst1]
      rw [hst3]
      dsimp only
      rw [hE2, List.map_map, List.map_map]
      refine List.map_congr_left fun e _ => ?_
      simp only [Function.comp_apply]
      by_cases hc : (e.id == req.eventId) = true
      · unfold decrementEventRow incrementEventRow
        rw [if_pos hc]
        dsimp only
        rw [if_pos (by rw [hbev]; exact hc)]
        dsimp only
        rw [hbq]
        congr 1
        omega
      · unfold decrementEventRow incrementEventRow
        rw [if_neg hc]
        rw [if_neg (by rw [hbev]; exact hc)]
  · intro st bid now b0 hfind
    exact cancelBooking_err_iff st bid now b0 hfind

/-- The state after cancelling the c2 booking: the seat is available
again and the counter restored. -/
def c5State : DBState :=
  { events := [{ exEvent with availableTickets := 1 }],
    tickets := [{ id := 1, eventId := 1, seatNo := "S001", status := .available,
                  updatedAt := 20 }],
    bookings := [{ c2Booking with status := .cancelled }], nextBookingId := 2 }

/-- Witness for C5 running the full hold-book-cancel sequence on the
one-seat event. -/
theorem c5_cancel_round_trip_witness :
    ((∀ t ∈ c5State.tickets, t.id ∈ c2Booking.ticketIds →
        t.status = TicketStatus.available) ∧
      c5State.events.map (fun e => (e.id, e.availableTickets)) =
        exState.events.map (fun e => (e.id, e.availableTickets))) ∧
    ((cancelBooking c4State 1 25).2 = none ↔
      c4PendingBooking.status ≠ .cancelled) :=
  ⟨c5_cancel_round_trip.1 exState exStateLocked c2State c5State c2Booking
      { userId := 7, eventId := 1, quantity := 1 } 1 "S001" 5 10 20 900
      (by decide) (by decide) rfl rfl,
    c5_cancel_round_trip.2 c4State 1 25 c4PendingBooking (by decide)⟩

/-- contains finds a suffix. -/
lemma goContains_append (a b : List Char) : goContains (a ++ b) b = true := by
  unfold goContains
  rcases a with - | ⟨x, xs⟩
  · simp
  · rw [Bool.and_eq_true, Bool.or_eq_true, Bool.and_eq_true]
    refine ⟨by simp; omega, Or.inr ⟨by simp; omega, ?_⟩⟩
    unfold findSubstring
    rw [List.any_eq_true]
    refine ⟨(x :: xs).length, ?_, ?_⟩
    · rw [List.mem_range]
      simp
      omega
    · rw [List.drop_left, List.take_length]
      simp

/-- The wrapped exhaustion error cites the final cause verbatim. -/
lemma retriesExhaustedMsg_cites (m : Nat) (e : String) :
    containsStr (retriesExhaustedMsg m e) e = true := by
  unfold containsStr retriesExhaustedMsg
  rw [String.data_append]
  exact goContains_append _ _

/-- The retry loop invokes fn at most once per remaining iteration. -/
lemma withRetryAux_count_le (fn : Nat → Option String) (ctxDone : Nat → Bool)
    (ctxErr : String) (maxRetries : Nat) :
    ∀ (fuel i : Nat), (withRetryAux fn ctxDone ctxErr maxRetries i fuel).2 ≤ fuel := by
  intro fuel
  induction fuel with
  | zero => intro i; rfl
  | succ f ih =>
    intro i
    unfold withRetryAux
    cases fn i with
    | none => exact Nat.le_add_left 1 f
    | some e =>
      dsimp only
      by_cases hr : isRetryableError e = true
      · rw [if_pos hr]
        by_cases hi : i < maxRetries
        · rw [if_pos hi]
          by_cases hd : ctxDone i = true
          · rw [if_pos hd]
            exact Nat.le_add_left 1 f
          · rw [if_neg hd]
            dsimp only
            have := ih (i + 1)
            omega
        · rw [if_neg hi]
          exact Nat.le_add_left 1 f
      · rw [if_neg hr]
        exact Nat.le_add_left 1 f

/-- Skipping a retryable, uncancelled prefix of attempts. -/
lemma withRetryAux_skip (fn : Nat → Option String) (ctxDone : Nat → Bool)
    (ctxErr : String) (maxRetries : Nat) :
    ∀ (k i : Nat), i + k ≤ maxRetries →
      (∀ j, i ≤ j → j < i + k →
        ∃ ej, fn j = some ej ∧ isRetryableError ej = true ∧ ctxDone j = false) →
      withRetryAux fn ctxDone ctxErr maxRetries i (maxRetries + 1 - i) =
        ((withRetryAux fn ctxDone ctxErr maxRetries (i + k)
            (maxRetries + 1 - (i + k))).1,
          (withRetryAux fn ctxDone ctxErr maxRetries (i + k)
            (maxRetries + 1 - (i + k))).2 + k) := by
  intro k
  induction k with
  | zero => intro i _ _; simp
  | succ k ih =>
    intro i hik hpre
    obtain ⟨ej, hfj, hrj, hdj⟩ := hpre i (Nat.le_refl i) (by omega)
    have hfuel : maxRetries + 1 - i = (maxRetries - i) + 1 := by omega
    rw [hfuel]
    rw [withRetryAux]
    simp only [hfj]
    rw [if_pos hrj, if_pos (by omega : i < maxRetries), if_neg (by rw [hdj]; simp)]
    have hrest := ih (i + 1) (by omega) fun j hj1 hj2 => hpre j (by omega) (by omega)
    have hfuel2 : maxRetries - i = maxRetries + 1 - (i + 1) := by omega
    rw [hfuel2, hrest]
    have heq : i + 1 + k = i + (k + 1) := by omega
    rw [heq]
    rw [Nat.add_assoc]

/-- C7: run_with_retry invokes fn at most max_attempts+1 times; a
non-transient error after a retryable prefix is returned immediately
with no further invocation; a cancelled context between attempts makes
it return the context's error immediately; and when every attempt fails
with a transient error it returns the wrapped error citing the final
cause.  fn gives each invocation's outcome (none = success); ctxDone
says whether the context is cancelled when the inter-attempt sleep
select runs; the pair's second component counts the invocations of fn. -/
theorem c7_with_retry :
    (∀ (maxRetries : Nat) (fn : Nat → Option String) (ctxDone : Nat → Bool)
        (ctxErr : String),
      (withRetry maxRetries fn ctxDone ctxErr).2 ≤ maxRetries + 1) ∧
    (∀ (maxRetries : Nat) (fn : Nat → Option String) (ctxDone : Nat → Bool)
        (ctxErr : String) (k : Nat) (e : String),
      k ≤ maxRetries →
      (∀ j, j < k →
        ∃ ej, fn j = some ej ∧ isRetryableError ej = true ∧ ctxDone j = false) →
      fn k = some e → isRetryableError e = false →
      withRetry maxRetries fn ctxDone ctxErr = (some e, k + 1)) ∧
    (∀ (maxRetries : Nat) (fn : Nat → Option String) (ctxDone : Nat → Bool)
        (ctxErr : String) (k : Nat) (e : String),
      k < maxRetries →
      (∀ j, j < k →
        ∃ ej, fn j = some ej ∧ isRetryableError ej = true ∧ ctxDone j = false) →
      fn k = some e → isRetryableError e = true → ctxDone k = true →
      withRetry maxRetries fn ctxDone ctxErr = (some ctxErr, k + 1)) ∧
    (∀ (maxRetries : Nat) (fn : Nat → Option String) (ctxDone : Nat → Bool)
        (ctxErr : String) (e : String),
      (∀ j, j < maxRetries →
        ∃ ej, fn j = some ej ∧ isRetryableError ej = true ∧ ctxDone j = false) →
      fn maxRetries = some e → isRetryableError e = true →
      withRetry maxRetries fn ctxDone ctxErr =
        (some (retriesExhaustedMsg maxRetries e), maxRetries + 1) ∧
      containsStr (retriesExhaustedMsg maxRetries e) e = true) := by
  refine ⟨?_, ?_, ?_, ?_⟩
  · intro maxRetries fn ctxDone ctxErr
    exact withRetryAux_count_le fn ctxDone ctxErr maxRetries (maxRetries + 1) 0
  · intro maxRetries fn ctxDone ctxErr k e hk hpre hfk hre
    unfold withRetry
    have hskip := withRetryAux_skip fn ctxDone ctxErr maxRetries k 0 (by omega)
      fun j hj1 hj2 => hpre j (by omega)
    simp only [Nat.zero_add, Nat.sub_zero] at hskip
    rw [hskip]
    have hfuel : maxRetries + 1 - k = (maxRetries - k) + 1 := by omega
    rw [hfuel]
    unfold withRetryAux
    simp only [hfk]
    rw [if_neg (by rw [hre]; simp)]
    simp
    omega
  · intro maxRetries fn ctxDone ctxErr k e hk hpre hfk hre hdk
    unfold withRetry
    have hskip := withRetryAux_skip fn ctxDone ctxErr maxRetries k 0 (by omega)
      fun j hj1 hj2 => hpre j (by omega)
    simp only [Nat.zero_add, Nat.sub_zero] at hskip
    rw [hskip]
    have hfuel : maxRetries + 1 - k = (maxRetries - k) + 1 := by omega
    rw [hfuel]
    unfold withRetryAux
    simp only [hfk]
    rw [if_pos hre, if_pos hk, if_pos hdk]
    simp
    omega
  · intro maxRetries fn ctxDone ctxErr e hpre hfm hre
    refine ⟨?_, retriesExhaustedMsg_cites maxRetries e⟩
    unfold withRetry
    have hskip := withRetryAux_skip fn ctxDone ctxErr maxRetries maxRetries 0 (by omega)
      fun j hj1 hj2 => hpre j (by omega)
    simp only [Nat.zero_add, Nat.sub_zero] at hskip
    rw [hskip]
    have hfuel : maxRetries + 1 - maxRetries = 1 := by omega
    rw [hfuel]
    unfold withRetryAux
    simp only [hfm]
    rw [if_pos hre, if_neg (by omega : ¬ maxRetries < maxRetries)]
    simp
    omega

/-- Witness for C7 at concrete schedules of outcomes: a non-retryable
error returned after one call, a cancellation after the second attempt,
and full exhaustion on persistent deadlocks. -/
theorem c7_with_retry_witness :
    withRetry 3 (fun _ => some "boom") (fun _ => false) "context canceled" =
      (some "boom", 1) ∧
    withRetry 3 (fun _ => some "deadlock detected") (fun i => i == 1)
      "context canceled" = (some "context canceled", 2) ∧
    withRetry 3 (fun _ => some "deadlock detected") (fun _ => false)
      "context canceled" =
      (some (retriesExhaustedMsg 3 "deadlock detected"), 4) :=
  ⟨c7_with_retry.2.1 3 (fun _ => some "boom") (fun _ => false) "context canceled" 0
      "boom" (by omega) (fun j hj => absurd hj (Nat.not_lt_zero j)) rfl (by decide),
    c7_with_retry.2.2.1 3 (fun _ => some "deadlock detected") (fun i => i == 1)
      "context canceled" 1 "deadlock detected" (by omega)
      (fun j hj => ⟨"deadlock detected", rfl, by decide,
        by simp; omega⟩) rfl (by decide) (by decide),
    (c7_with_retry.2.2.2 3 (fun _ => some "deadlock detected") (fun _ => false)
      "context canceled" "deadlock detected"
      (fun j hj => ⟨"deadlock detected", rfl, by decide, rfl⟩) rfl (by decide)).1⟩

/-! ### The ticket-id array codec round trip -/

lemma toNat_ofNat_digit (k : Nat) (h : k < 10) :
    (Char.ofNat (48 + k)).toNat = 48 + k := by
  interval_cases k <;> decide

lemma isDigitChar_ofNat (k : Nat) (h : k < 10) :
    isDigitChar (Char.ofNat (48 + k)) = true := by
  interval_cases k <;> decide

lemma natToDigitsFuel_all_digits :
    ∀ (fuel n : Nat), n < fuel →
      (natToDigitsFuel fuel n).all isDigitChar = true ∧ natToDigitsFuel fuel n ≠ [] := by
  intro fuel
  induction fuel with
  | zero => intro n h; omega
  | succ f ih =>
    intro n h
    unfold natToDigitsFuel
    by_cases h10 : n < 10
    · rw [if_pos h10]
      exact ⟨by simp [isDigitChar_ofNat n h10], by simp⟩
    · rw [if_neg h10]
      have hrec := ih (n / 10) (by omega)
      constructor
      · rw [List.all_append]
        rw [hrec.1]
        simp [isDigitChar_ofNat (n % 10) (Nat.mod_lt n (by omega))]
      · simp

/-- The numeric value Atoi computes from a digit string. -/
def digitsVal (s : List Char) : Nat :=
  s.foldl (fun acc c => 10 * acc + (c.toNat - 48)) 0

lemma digitsVal_append (a : List Char) (c : Char) :
    digitsVal (a ++ [c]) = 10 * digitsVal a + (c.toNat - 48) := by
  unfold digitsVal
  rw [List.foldl_append]
  rfl

lemma digitsVal_natToDigitsFuel :
    ∀ (fuel n : Nat), n < fuel → digitsVal (natToDigitsFuel fuel n) = n := by
  intro fuel
  induction fuel with
  | zero => intro n h; omega
  | succ f ih =>
    intro n h
    unfold natToDigitsFuel
    by_cases h10 : n < 10
    · rw [if_pos h10]
      unfold digitsVal
      rw [List.foldl_cons]
      rw [List.foldl_nil]
      rw [toNat_ofNat_digit n h10]
      omega
    · rw [if_neg h10]
      rw [digitsVal_append]
      rw [ih (n / 10) (by omega)]
      rw [toNat_ofNat_digit (n % 10) (Nat.mod_lt n (by omega))]
      omega

lemma natToDigits_all_digits (n : Nat) :
    (natToDigits n).all isDigitChar = true ∧ natToDigits n ≠ [] :=
  natToDigitsFuel_all_digits (n + 1) n (Nat.lt_succ_self n)

lemma goAtoi_natToDigits (n : Nat) : goAtoi (natToDigits n) = some n := by
  obtain ⟨hall, hne⟩ := natToDigits_all_digits n
  unfold goAtoi
  rw [if_neg (by simpa using hne)]
  rw [if_pos hall]
  have := digitsVal_natToDigitsFuel (n + 1) n (Nat.lt_succ_self n)
  unfold digitsVal at this
  rw [show natToDigits n = natToDigitsFuel (n + 1) n from rfl, this]

/-- Scanning a digit run only grows the current number. -/
lemma foldl_parseStep_digits (ds : List Char) (hds : ds.all isDigitChar = true) :
    ∀ st : List Nat × List Char, ds.foldl parseStep st = (st.1, st.2 ++ ds) := by
  induction ds with
  | nil => intro st; simp
  | cons d ds ih =>
    intro st
    rw [List.all_cons, Bool.and_eq_true] at hds
    rw [List.foldl_cons]
    have hstep : parseStep st d = (st.1, st.2 ++ [d]) := by
      unfold parseStep
      rw [if_pos hds.1]
    rw [hstep, ih hds.2]
    simp

lemma comma_not_digit : isDigitChar (Char.ofNat 44) = false := by decide

/-- One comma flushes a non-empty digit run through Atoi. -/
lemma parseStep_comma (acc : List Nat) (cur : List Char) (hne : cur ≠ [])
    (n : Nat) (hatoi : goAtoi cur = some n) :
    parseStep (acc, cur) (Char.ofNat 44) = (acc ++ [n], []) := by
  unfold parseStep
  rw [if_neg (by rw [comma_not_digit]; simp)]
  rw [if_pos (by decide)]
  dsimp only
  rw [if_neg (by simpa using hne)]
  rw [hatoi]

lemma joinInts_factor (sep : List Char) (l : List Nat) :
    ∀ A B : List Char,
      l.foldl (fun acc n => acc ++ sep ++ natToDigits n) (A ++ B) =
        A ++ l.foldl (fun acc n => acc ++ sep ++ natToDigits n) B := by
  induction l with
  | nil => intro A B; simp
  | cons x xs ih =>
    intro A B
    rw [List.foldl_cons, List.foldl_cons]
    rw [show A ++ B ++ sep ++ natToDigits x = A ++ (B ++ sep ++ natToDigits x) by
      simp [List.append_assoc]]
    rw [ih]

lemma joinInts_cons (sep : List Char) (x : Nat) (y : Nat) (ys : List Nat) :
    joinInts (x :: y :: ys) sep = natToDigits x ++ sep ++ joinInts (y :: ys) sep := by
  simp only [joinInts]
  rw [List.foldl_cons]
  rw [show natToDigits x ++ sep ++ natToDigits y =
    (natToDigits x ++ sep) ++ natToDigits y by simp [List.append_assoc]]
  rw [joinInts_factor]

lemma joinInts_ne_nil (x : Nat) (xs : List Nat) (sep : List Char) :
    joinInts (x :: xs) sep ≠ [] := by
  cases xs with
  | nil =>
    simp only [joinInts]
    rw [List.foldl_nil]
    exact (natToDigits_all_digits x).2
  | cons y ys =>
    rw [joinInts_cons]
    intro hx
    have hne := (natToDigits_all_digits x).2
    rcases hd : natToDigits x with - | ⟨c, cs⟩
    · exact hne hd
    · rw [hd] at hx
      simp at hx

/-- Scanning the rendered id list appends exactly the ids. -/
lemma scan_joinInts (ids : List Nat) (h : ids ≠ []) :
    ∀ acc : List Nat,
      parseFinish ((joinInts ids [Char.ofNat 44]).foldl parseStep (acc, [])) =
        acc ++ ids := by
  induction ids with
  | nil => exact absurd rfl h
  | cons x xs ih =>
    intro acc
    cases xs with
    | nil =>
      simp only [joinInts]
      rw [List.foldl_nil]
      rw [foldl_parseStep_digits (natToDigits x) (natToDigits_all_digits x).1]
      unfold parseFinish
      dsimp only
      rw [if_neg (by simpa using (natToDigits_all_digits x).2)]
      rw [List.nil_append]
      rw [goAtoi_natToDigits x]
    | cons y ys =>
      rw [joinInts_cons]
      rw [List.append_assoc, List.foldl_append]
      rw [foldl_parseStep_digits (natToDigits x) (natToDigits_all_digits x).1]
      dsimp only
      rw [List.nil_append]
      rw [List.singleton_append, List.foldl_cons]
      rw [parseStep_comma acc (natToDigits x) (natToDigits_all_digits x).2 x
        (goAtoi_natToDigits x)]
      rw [ih (by simp) (acc ++ [x])]
      simp

/-- C10: the hand-rolled ticket-id array codec round-trips — parsing the
PostgreSQL rendering "{" ++ joinInts(ids, ",") ++ "}" of any non-empty
list of non-negative integers returns exactly the list, and any input
shorter than three characters (including the empty array) parses to the
empty list.  0x7b and 0x7d are the brace delimiters, 0x2c the comma. -/
theorem c10_parse_ticket_ids_round_trip :
    (∀ ids : List Nat, ids ≠ [] →
      parseTicketIDs (Char.ofNat 123 :: (joinInts ids [Char.ofNat 44] ++
        [Char.ofNat 125])) = ids) ∧
    (∀ s : List Char, s.length < 3 → parseTicketIDs s = []) := by
  constructor
  · intro ids hne
    obtain ⟨x, xs, rfl⟩ : ∃ x xs, ids = x :: xs := by
      cases ids with
      | nil => exact absurd rfl hne
      | cons x xs => exact ⟨x, xs, rfl⟩
    have hJ := joinInts_ne_nil x xs [Char.ofNat 44]
    have hJlen : 1 ≤ (joinInts (x :: xs) [Char.ofNat 44]).length := by
      cases hl : joinInts (x :: xs) [Char.ofNat 44] with
      | nil => exact absurd hl hJ
      | cons c cs => simp
    unfold parseTicketIDs
    rw [if_neg (by simp; omega)]
    have hinner : ((Char.ofNat 123 :: (joinInts (x :: xs) [Char.ofNat 44] ++
        [Char.ofNat 125])).drop 1).dropLast = joinInts (x :: xs) [Char.ofNat 44] := by
      rw [List.drop_one, List.tail_cons]
      rw [List.dropLast_concat]
    rw [hinner]
    rw [if_neg (by simp only [beq_iff_eq]; omega)]
    exact scan_joinInts (x :: xs) (by simp) []
  · intro s h
    unfold parseTicketIDs
    rw [if_pos h]

/-- Witness for C10 on a concrete id list and on the empty array text. -/
theorem c10_parse_ticket_ids_round_trip_witness :
    parseTicketIDs (Char.ofNat 123 :: (joinInts [10, 2, 33] [Char.ofNat 44] ++
      [Char.ofNat 125])) = [10, 2, 33] ∧
    parseTicketIDs [Char.ofNat 123, Char.ofNat 125] = [] :=
  ⟨c10_parse_ticket_ids_round_trip.1 [10, 2, 33] (by decide),
    c10_parse_ticket_ids_round_trip.2 [Char.ofNat 123, Char.ofNat 125] (by decide)⟩

end TicketBooking
